import Mathlib

/-!
# cellular: a toroidal grid of RGBA cells and Conway's Game of Life

A shallow embedding of `src/cellular.js`, followed by the lemmas about it and
the properties of the specification.

* A `Uint8ClampedArray` is a `List Byte` with `Byte = Fin 256`; `slice` and
  `set` follow ECMAScript, `set` raising `RangeError` when the source does not
  fit.
* JavaScript numbers that hold integers are `Int`, so the arithmetic is that
  of JavaScript as long as it stays within the safe integers. The JavaScript
  remainder operator `%` truncates towards zero and is `Int.tmod`. Where a
  property speaks of positions beyond the safe integers, the sum is `jsAdd`,
  which rounds as a double does.
* The largest typed array that the engine allocates is a parameter, `limit`,
  of the constructor `Grid.newWithin`.
* `ImageData`, the browser class that `Grid` extends, is not in the source; its
  constructor is modelled from the specification.
* Methods that mutate `this` return the new object; methods that can throw
  return `Except JsError`.
* Callbacks are pure functions.
-/

set_option autoImplicit false

namespace Cellular

/-- One element of a `Uint8ClampedArray`. -/
abbrev Byte := Fin 256

/-- Errors raised by the platform classes the program builds on. -/
inductive JsError where
  | RangeError
  | InvalidDimensions
deriving DecidableEq, Repr

/-! ## Typed-array primitives (ECMAScript `%TypedArray%.prototype`) -/

/-- Conversion of an integer to an element of a `Uint8ClampedArray`
(`ToUint8Clamp` restricted to integers). -/
def clampByte (v : Int) : Byte :=
  if v < 0 then 0 else if 255 < v then 255 else Fin.ofNat v.toNat

/-- Source: `new Uint8ClampedArray(length)` on an engine that has room for
`length` elements: a zero-filled array, `RangeError` for a negative length.
This is the allocation of `copy`, which repeats the length of a buffer that
exists. The limit of the engine is in `Uint8ClampedArray.allocWithin`. -/
def Uint8ClampedArray.alloc (length : Int) : Except JsError (List Byte) :=
  if length < 0 then .error .RangeError else .ok (List.replicate length.toNat 0)

/-- Source: `new Uint8ClampedArray(length)` on an engine whose typed arrays hold
at most `limit` elements: `RangeError` also for a length above the limit.
ECMAScript refuses every length above `2^53 - 1`; engines set the limit
lower. -/
def Uint8ClampedArray.allocWithin (limit : Nat) (length : Int) :
    Except JsError (List Byte) :=
  if (limit : Int) < length then .error .RangeError else Uint8ClampedArray.alloc length

/-- A relative index of `slice`, clamped into `[0, len]`. -/
def relativeIndex (len : Nat) (i : Int) : Nat :=
  if i < 0 then (max ((len : Int) + i) 0).toNat else (min i (len : Int)).toNat

/-- Source: `array.slice(start, end)`. -/
def typedSlice (array : List Byte) (start stop : Int) : List Byte :=
  let k := relativeIndex array.length start
  let fin := relativeIndex array.length stop
  (array.drop k).take (fin - k)

/-- Source: `target.set(source, offset)`: `RangeError` unless the whole of `source` fits
into `target` at `offset`. -/
def typedSet (target source : List Byte) (offset : Int) : Except JsError (List Byte) :=
  if offset < 0 ∨ (target.length : Int) < offset + source.length then
    .error .RangeError
  else
    .ok (target.take offset.toNat ++ source ++ target.drop (offset.toNat + source.length))

/-! ## Color -/

/-- An rgba color: `class Color extends Uint8ClampedArray`, always of length
`Color.SIZE`. -/
structure Color where
  r : Byte
  g : Byte
  b : Byte
  a : Byte
deriving DecidableEq, Repr

/-- Source: `static get SIZE()`. -/
def Color.SIZE : Nat := 4

/-- The four elements of the color as an array. -/
def Color.toList (c : Color) : List Byte := [c.r, c.g, c.b, c.a]

/-- Source: `new Color(r, g, b, a)` on four numbers: `this.set([r, g, b, a], 0)`
stores each number clamped. (The default `a = 0xff` is passed explicitly.) -/
def Color.new (r g b a : Int) : Color :=
  ⟨clampByte r, clampByte g, clampByte b, clampByte a⟩

/-- Source: `new Color(src)` on a `Uint8ClampedArray`: `this.set(src, 0)` on the
zero-filled array of length `Color.SIZE`. Every caller passes a slice of at
most `Color.SIZE` elements or another color, for which `set` does not throw;
elements beyond the end of `src` stay zero. -/
def Color.ofArray (src : List Byte) : Color :=
  ⟨src.getD 0 0, src.getD 1 0, src.getD 2 0, src.getD 3 0⟩

/-- Source: `equals(other)`: the loop over the `Color.SIZE` indices returns `false` at
the first index whose elements differ. -/
def Color.equals (self other : Color) : Bool :=
  (List.range Color.SIZE).all fun i => self.toList.getD i 0 == other.toList.getD i 0

/-! ## Grid -/

/-- A grid backed by a byte array: `class Grid extends ImageData`, with the
inherited fields `width`, `height` and `data`. -/
structure Grid where
  width : Nat
  height : Nat
  data : List Byte
deriving DecidableEq, Repr

/-- The invariant of an `ImageData` object: positive dimensions and a buffer
of `width * height * 4` bytes. -/
def Grid.WF (g : Grid) : Prop :=
  0 < g.width ∧ 0 < g.height ∧ g.data.length = g.width * g.height * Color.SIZE

instance (g : Grid) : Decidable g.WF := by
  unfold Grid.WF; exact inferInstance

/-- Modelled from the spec: the constructor of the base class `ImageData`,
a browser class that is not part of the source. The spec has it refuse
dimensions that are not positive with `InvalidDimensions`; otherwise the
object holds the given buffer and dimensions. -/
def ImageData.new (data : List Byte) (width height : Int) : Except JsError Grid :=
  if width ≤ 0 ∨ height ≤ 0 then .error .InvalidDimensions
  else .ok ⟨width.toNat, height.toNat, data⟩

/-- Source: `constructor(width, height)`:
`super(new Uint8ClampedArray(width * height * Color.SIZE), width, height)`. -/
def Grid.new (width height : Int) : Except JsError Grid := do
  let data ← Uint8ClampedArray.alloc (width * height * Color.SIZE)
  ImageData.new data width height

/-- Source: `constructor(width, height)` on an engine whose typed arrays hold at
most `limit` elements. -/
def Grid.newWithin (limit : Nat) (width height : Int) : Except JsError Grid := do
  let data ← Uint8ClampedArray.allocWithin limit (width * height * Color.SIZE)
  ImageData.new data width height

def Grid._valid_x (g : Grid) (x : Int) : Bool :=
  decide (0 ≤ x) && decide (x < g.width)

def Grid._valid_y (g : Grid) (y : Int) : Bool :=
  decide (0 ≤ y) && decide (y < g.height)

def Grid._fix_x (g : Grid) (x : Int) : Int :=
  Int.tmod (Int.tmod x g.width + g.width) g.width

def Grid._fix_y (g : Grid) (y : Int) : Int :=
  Int.tmod (Int.tmod y g.height + g.height) g.height

def Grid._ensure_x (g : Grid) (x : Int) : Int :=
  if g._valid_x x then x else g._fix_x x

def Grid._ensure_y (g : Grid) (y : Int) : Int :=
  if g._valid_y y then y else g._fix_y y

def Grid._inx (g : Grid) (x y : Int) : Int :=
  y * g.width * Color.SIZE + x * Color.SIZE

def Grid._ensure_inx (g : Grid) (x y : Int) : Int :=
  g._inx (g._ensure_x x) (g._ensure_y y)

/-- Source: `_blit(other)`: `this.data.set(other.data, 0)`. -/
def Grid._blit (self other : Grid) : Except JsError Grid := do
  let data ← typedSet self.data other.data 0
  pure { self with data := data }

/-- Source: `copy()`. -/
def Grid.copy (self : Grid) : Except JsError Grid := do
  let ret ← Grid.new self.width self.height
  ret._blit self

/-- Source: `get(x, y)`. -/
def Grid.get (g : Grid) (x y : Int) : Color :=
  let inx := g._ensure_inx x y
  Color.ofArray (typedSlice g.data inx (inx + Color.SIZE))

/-- Source: `_set(inx, color)`: `this.data.set(color, inx)`. -/
def Grid._set (g : Grid) (inx : Int) (color : Color) : Except JsError Grid := do
  let data ← typedSet g.data color.toList inx
  pure { g with data := data }

/-- Source: `set(x, y, color)`: `this.data.set(color, this._ensure_inx(x, y))`. -/
def Grid.set (g : Grid) (x y : Int) (color : Color) : Except JsError Grid := do
  let data ← typedSet g.data color.toList (g._ensure_inx x y)
  pure { g with data := data }

/-- Source: `fill(color)`: the loop over the byte indices `0, 4, 8, ...` below
`this.data.length`. -/
def Grid.fill (g : Grid) (color : Color) : Except JsError Grid :=
  (List.range ((g.data.length + Color.SIZE - 1) / Color.SIZE)).foldlM
    (fun (ret : Grid) (k : Nat) => ret._set ((k * Color.SIZE : Nat) : Int) color) g

/-- Source: `shade(callback)`: the two nested loops carry the running index `inx`
and the grid being written. -/
def Grid.shade (g : Grid) (callback : Int → Int → Color) : Except JsError Grid := do
  let st ← (List.range g.height).foldlM
    (fun (st : Int × Grid) (y : Nat) =>
      (List.range g.width).foldlM
        (fun (st : Int × Grid) (x : Nat) => do
          let ret ← st.2._set st.1 (callback x y)
          pure (st.1 + Color.SIZE, ret))
        st)
    ((0 : Int), g)
  pure st.2

/-- The visits of the loops of `shade`, in their order: the running index
`inx` together with the position `(x, y)` at each call of `_set`. -/
def Grid.shadeVisited (g : Grid) : List (Int × Int × Int) :=
  ((List.range g.height).foldl
    (fun (st : Int × List (Int × Int × Int)) (y : Nat) =>
      (List.range g.width).foldl
        (fun (st : Int × List (Int × Int × Int)) (x : Nat) =>
          (st.1 + Color.SIZE, st.2 ++ [(st.1, (x : Int), (y : Int))]))
        st)
    ((0 : Int), [])).2

/-! ## JavaScript numbers -/

/-- The constant `Number.MAX_SAFE_INTEGER`, `2^53 - 1`. -/
def MAX_SAFE_INTEGER : Int := 9007199254740991

/-- The test `Number.isSafeInteger` on integers. -/
def isSafeInteger (n : Int) : Prop :=
  -MAX_SAFE_INTEGER ≤ n ∧ n ≤ MAX_SAFE_INTEGER

instance (n : Int) : Decidable (isSafeInteger n) := by
  unfold isSafeInteger; exact inferInstance

/-- The number of bits by which `m` exceeds the 53 bits of the significand of
a double; the fuel bounds the search. -/
def excessBits : Nat → Nat → Nat
  | 0, _ => 0
  | fuel + 1, m => if m < 2 ^ 53 then 0 else excessBits fuel (m / 2) + 1

/-- The double nearest to an integer below `2^1024` in magnitude: the
significand is rounded to 53 bits, to nearest and to even on a tie. -/
def roundToDouble (n : Int) : Int :=
  let m := n.natAbs
  let k := excessBits 1024 m
  let q := m / 2 ^ k
  let r := m % 2 ^ k
  let up := decide (2 ^ k < 2 * r) || (decide (2 * r = 2 ^ k) && decide (q % 2 = 1))
  Int.sign n * (((if up then q + 1 else q) * 2 ^ k : Nat) : Int)

/-- The JavaScript sum `a + b` of two integers that are doubles. -/
def jsAdd (a b : Int) : Int :=
  roundToDouble (a + b)

/-! ## Cell -/

/-- A cell within the context of a grid: `class Cell extends Color`, the
color being the elements of the object itself. -/
structure Cell where
  color : Color
  grid : Grid
  x : Int
  y : Int

/-- Source: `constructor(grid, x, y)`: `super(grid.get(x, y))` copies the color. -/
def Cell.new (grid : Grid) (x y : Int) : Cell :=
  { color := Color.ofArray (grid.get x y).toList, grid := grid, x := x, y := y }

/-- Source: `equals` inherited from `Color`. -/
def Cell.equals (self : Cell) (other : Color) : Bool :=
  self.color.equals other

/-- Source: `neighbors(callback)`: the number of neighbors which pass `callback`.
The additions `this.x + i` and `this.y + j` are exact here, as they are in
JavaScript when `x` and `y` are safe integers, which the positions of a grid
are; `Cell.neighborsDouble` has the rounded additions. -/
def Cell.neighbors (self : Cell) (callback : Color → Bool) : Nat :=
  [(-1 : Int), 0, 1].foldl
    (fun count i =>
      [(-1 : Int), 0, 1].foldl
        (fun count j =>
          if i == 0 && j == 0 then count
          else if callback (self.grid.get (self.x + i) (self.y + j)) then count + 1
          else count)
        count)
    0

/-- Source: `neighbors(callback)` with the additions `this.x + i` and
`this.y + j` rounded as JavaScript rounds them. -/
def Cell.neighborsDouble (self : Cell) (callback : Color → Bool) : Nat :=
  [(-1 : Int), 0, 1].foldl
    (fun count i =>
      [(-1 : Int), 0, 1].foldl
        (fun count j =>
          if i == 0 && j == 0 then count
          else if callback (self.grid.get (jsAdd self.x i) (jsAdd self.y j)) then count + 1
          else count)
        count)
    0

/-- The offsets `(i, j)` at which the loop of `neighbors` calls `callback`,
in the order of the calls. -/
def Cell.neighborsEvaluated : List (Int × Int) :=
  [(-1 : Int), 0, 1].foldl
    (fun trace i =>
      [(-1 : Int), 0, 1].foldl
        (fun trace j =>
          if i == 0 && j == 0 then trace
          else trace ++ [(i, j)])
        trace)
    []

/-- Source: `shade_cell(callback)`: cells are built from `this`, results are written
into the copy `ret`, and `ret` is blitted back at the end. -/
def Grid.shade_cell (self : Grid) (callback : Cell → Color) : Except JsError Grid := do
  let ret ← self.copy
  let st ← (List.range self.height).foldlM
    (fun (st : Int × Grid) (y : Nat) =>
      (List.range self.width).foldlM
        (fun (st : Int × Grid) (x : Nat) => do
          let ret ← st.2._set st.1 (callback (Cell.new self x y))
          pure (st.1 + Color.SIZE, ret))
        st)
    ((0 : Int), ret)
  self._blit st.2

/-! ## The Game of Life rule of `frame` -/

/-- Source: `new Color(0, 0, 0)`. -/
def BLACK : Color := Color.new 0 0 0 0xff

/-- Source: `new Color(0xff, 0xff, 0xff)`. -/
def WHITE : Color := Color.new 0xff 0xff 0xff 0xff

/-- The callback that `frame` passes to `shade_cell`. In JavaScript `&&` binds
tighter than `||`. -/
def lifeRule (cell : Cell) : Color :=
  let neighbors := cell.neighbors (fun c => c.equals WHITE)
  if (cell.equals WHITE && neighbors == 2) || neighbors == 3 then
    WHITE
  else if cell.equals BLACK && neighbors == 3 then
    WHITE
  else
    BLACK

/-- One generation: the `shade_cell` call of `frame`. -/
def step (g : Grid) : Except JsError Grid :=
  g.shade_cell lifeRule

/-- The grid after `k` generations, each the `shade_cell` call of one run of
`frame`. -/
def generations : Nat → Grid → Except JsError Grid
  | 0, g => pure g
  | k + 1, g => do
    let g' ← step g
    generations k g'

/-! ## Objects and their buffers

The definitions above pass grids by value. To speak about two objects that
could share storage, the methods that `copy` involves are also given on a
store of buffers, in which a `Grid` object holds a reference to its `data`
buffer. Each one runs the method above on the buffers it reads and writes the
result back into the buffer of `this`. -/

/-- The buffers allocated so far, numbered in the order of their
allocation. -/
abbrev Store := List (List Byte)

/-- A `Grid` object: the dimensions and the reference to the `data` buffer. -/
structure GridObj where
  width : Nat
  height : Nat
  data : Nat
deriving DecidableEq, Repr

/-- The grid that an object holds in a store. -/
def GridObj.read (o : GridObj) (s : Store) : Grid :=
  ⟨o.width, o.height, s.getD o.data []⟩

/-- Source: `new Grid(width, height)`; the new `Uint8ClampedArray` is a buffer
of its own at the end of the store. -/
def GridObj.new (s : Store) (width height : Int) : Except JsError (Store × GridObj) := do
  let g ← Grid.new width height
  pure (s ++ [g.data], ⟨g.width, g.height, s.length⟩)

/-- Source: `_blit(other)`: `this.data.set(other.data, 0)` writes into the buffer
of `this`. -/
def GridObj._blit (s : Store) (self other : GridObj) : Except JsError Store := do
  let g ← (self.read s)._blit (other.read s)
  pure (s.set self.data g.data)

/-- Source: `copy()`. -/
def GridObj.copy (s : Store) (self : GridObj) : Except JsError (Store × GridObj) := do
  let r ← GridObj.new s self.width self.height
  let s2 ← GridObj._blit r.1 r.2 self
  pure (s2, r.2)

/-- Source: `get(x, y)`. -/
def GridObj.get (s : Store) (self : GridObj) (x y : Int) : Color :=
  (self.read s).get x y

/-- Source: `set(x, y, color)` writes into the buffer of `this`. -/
def GridObj.set (s : Store) (self : GridObj) (x y : Int) (color : Color) :
    Except JsError Store := do
  let g ← (self.read s).set x y color
  pure (s.set self.data g.data)

/-! ## Auxiliary definitions for the proofs -/

/-- The number of the cell that the wrapped position `(x, y)` addresses, in
row-major order. -/
def Grid.cellIndex (g : Grid) (x y : Int) : Nat :=
  (y % (g.height : Int)).toNat * g.width + (x % (g.width : Int)).toNat

/-- The color held by cell number `m` of a byte buffer. -/
def cellAt (data : List Byte) (m : Nat) : Color :=
  Color.ofArray ((data.drop (m * 4)).take 4)

/-- The buffer with the four bytes of cell number `m` replaced. -/
def writeCell (data : List Byte) (m : Nat) (c : Color) : List Byte :=
  data.take (m * 4) ++ c.toList ++ data.drop (m * 4 + 4)

/-- The decision of the Life rule on "the cell is white" and the number of
white neighbors: the first condition of `lifeRule`. The second condition of
`lifeRule` can only hold when this one does. -/
def lifeBool (alive : Bool) (n : Nat) : Bool :=
  (alive && n == 2) || n == 3

/-- The number of neighbors in a pattern that is the product of a column
pattern and a row pattern, from the values of the two patterns at the
offsets `-1`, `0` and `1`. -/
def count8 (am a0 ap bm b0 bp : Bool) : Nat :=
  (am && bm).toNat + (am && b0).toNat + (am && bp).toNat + (a0 && bm).toNat
    + (a0 && bp).toNat + (ap && bm).toNat + (ap && b0).toNat + (ap && bp).toNat

/-- The column, or row, pattern of a single line on a torus of circumference
`n`: positions congruent to `c`. -/
def onPoint (n : Nat) (c x : Int) : Bool :=
  decide (x % (n : Int) = c % (n : Int))

/-- The column, or row, pattern of three adjacent lines on a torus of
circumference `n`: positions congruent to `c - 1`, `c` or `c + 1`. -/
def onTriple (n : Nat) (c x : Int) : Bool :=
  decide (x % (n : Int) = (c - 1) % (n : Int) ∨ x % (n : Int) = c % (n : Int)
    ∨ x % (n : Int) = (c + 1) % (n : Int))

/-! ## Reference definitions taken from the specification -/

/-- The neighbor count as the specification words it: the number of offsets
`(dx, dy)` in `{-1, 0, 1} x {-1, 0, 1}` other than `(0, 0)` for which the
predicate holds of the wrapped lookup at `(x + dx, y + dy)`. -/
def neighborsSpec (g : Grid) (x y : Int) (p : Color → Bool) : Nat :=
  ((({-1, 0, 1} : Finset Int) ×ˢ ({-1, 0, 1} : Finset Int)).filter
    (fun d => d ≠ (0, 0) ∧ p (g.get (x + d.1) (y + d.2)) = true)).card

/-! ## Example grids -/

/-- A grid of width 3 and height 2 with a single white cell at `(1, 0)`. -/
def exampleGrid : Grid :=
  ⟨3, 2, BLACK.toList ++ WHITE.toList ++ BLACK.toList
      ++ BLACK.toList ++ BLACK.toList ++ BLACK.toList⟩

/-- A grid of width 3 and height 3 whose middle cell holds the color of a freshly
allocated buffer, `(0, 0, 0, 0)`, under a row of three white cells. -/
def freshCellGrid : Grid :=
  ⟨3, 3, WHITE.toList ++ WHITE.toList ++ WHITE.toList
      ++ BLACK.toList ++ (Color.new 0 0 0 0).toList ++ BLACK.toList
      ++ BLACK.toList ++ BLACK.toList ++ BLACK.toList⟩

/-- A grid of width 1 and height 2 with a white cell above a black cell. -/
def thinGrid : Grid :=
  ⟨1, 2, WHITE.toList ++ BLACK.toList⟩

/-- A grid of width 4 and height 4 with a white 2x2 block that starts at
`(3, 3)` and wraps around both edges: the white cells are the four corners. -/
def blockGrid : Grid :=
  ⟨4, 4, WHITE.toList ++ BLACK.toList ++ BLACK.toList ++ WHITE.toList
      ++ BLACK.toList ++ BLACK.toList ++ BLACK.toList ++ BLACK.toList
      ++ BLACK.toList ++ BLACK.toList ++ BLACK.toList ++ BLACK.toList
      ++ WHITE.toList ++ BLACK.toList ++ BLACK.toList ++ WHITE.toList⟩

/-- A store whose buffer number 1 is the buffer of the example grid, and the
object that holds it. -/
def exampleStore : Store := [[], exampleGrid.data]

/-- The `Grid` object of width 3 and height 2 on buffer number 1. -/
def exampleObj : GridObj := ⟨3, 2, 1⟩

/-- The example grid moved one column to the left: its white cell is at
`(0, 0)`. -/
def shiftedGrid : Grid :=
  ⟨3, 2, WHITE.toList ++ BLACK.toList ++ BLACK.toList
      ++ BLACK.toList ++ BLACK.toList ++ BLACK.toList⟩

/-- A grid of width 1 and height 1 whose cell is white. -/
def unitGrid : Grid :=
  ⟨1, 1, WHITE.toList⟩

/-- A grid of width 2 and height 2 with white cells at `(0, 0)` and `(1, 0)`. -/
def smallGrid : Grid :=
  ⟨2, 2, WHITE.toList ++ WHITE.toList ++ BLACK.toList ++ BLACK.toList⟩

/-- A grid of width 5 and height 5 with a horizontal blinker centered at
`(0, 2)`, so that it wraps around the left edge: the white cells are `(4, 2)`,
`(0, 2)` and `(1, 2)`. -/
def blinkerGrid : Grid :=
  ⟨5, 5,
    BLACK.toList ++ BLACK.toList ++ BLACK.toList ++ BLACK.toList ++ BLACK.toList
      ++ BLACK.toList ++ BLACK.toList ++ BLACK.toList ++ BLACK.toList ++ BLACK.toList
      ++ WHITE.toList ++ WHITE.toList ++ BLACK.toList ++ BLACK.toList ++ WHITE.toList
      ++ BLACK.toList ++ BLACK.toList ++ BLACK.toList ++ BLACK.toList ++ BLACK.toList
      ++ BLACK.toList ++ BLACK.toList ++ BLACK.toList ++ BLACK.toList ++ BLACK.toList⟩

end Cellular

namespace Cellular

/-! ## Arithmetic of the wrapped coordinates -/

theorem tmod_neg_lt (x : Int) (w : Nat) (hw : 0 < w) : -(w : Int) < Int.tmod x w := by
  rcases x with m | m
  · have h1 : 0 ≤ Int.tmod (Int.ofNat m) (w : Int) :=
      Int.tmod_nonneg (w : Int) (Int.ofNat_nonneg m)
    have h2 : (0:Int) < w := by exact_mod_cast hw
    omega
  · have h : Int.tmod (Int.negSucc m) (w : Int) = -(((m + 1) % w : Nat) : Int) := rfl
    rw [h]
    have := Nat.mod_lt (m + 1) hw
    omega

/-- The expression `((n % m) + m) % m` of the source, with the truncating
remainder of JavaScript, is the floored remainder. -/
theorem js_floored_mod (x : Int) (w : Nat) (hw : 0 < w) :
    Int.tmod (Int.tmod x w + w) w = x % (w : Int) := by
  have hlo := tmod_neg_lt x w hw
  have hw0 : (0 : Int) ≤ w := Int.ofNat_nonneg w
  rw [Int.tmod_eq_emod (by omega) hw0, Int.tmod_def]
  have : x - (w : Int) * x.tdiv w + w = x + (w : Int) * (1 - x.tdiv w) := by ring
  rw [this, Int.add_mul_emod_self_left]

theorem emod_bounds (x : Int) (w : Nat) (hw : 0 < w) :
    0 ≤ x % (w : Int) ∧ x % (w : Int) < w := by
  have h : (0 : Int) < w := by exact_mod_cast hw
  exact ⟨Int.emod_nonneg _ (by omega), Int.emod_lt_of_pos _ h⟩

theorem ensure_x_eq (g : Grid) (x : Int) (hw : 0 < g.width) :
    g._ensure_x x = x % (g.width : Int) := by
  unfold Grid._ensure_x Grid._valid_x Grid._fix_x
  split
  · rename_i h
    simp only [Bool.and_eq_true, decide_eq_true_eq] at h
    exact (Int.emod_eq_of_lt h.1 h.2).symm
  · exact js_floored_mod x g.width hw

theorem ensure_y_eq (g : Grid) (y : Int) (hh : 0 < g.height) :
    g._ensure_y y = y % (g.height : Int) := by
  unfold Grid._ensure_y Grid._valid_y Grid._fix_y
  split
  · rename_i h
    simp only [Bool.and_eq_true, decide_eq_true_eq] at h
    exact (Int.emod_eq_of_lt h.1 h.2).symm
  · exact js_floored_mod y g.height hh

theorem cellIndex_lt (g : Grid) (x y : Int) (hw : 0 < g.width) (hh : 0 < g.height) :
    g.cellIndex x y < g.width * g.height := by
  unfold Grid.cellIndex
  have hx := emod_bounds x g.width hw
  have hy := emod_bounds y g.height hh
  have hx2 : (x % (g.width : Int)).toNat < g.width := by omega
  have hy2 : (y % (g.height : Int)).toNat + 1 ≤ g.height := by omega
  calc (y % (g.height : Int)).toNat * g.width + (x % (g.width : Int)).toNat
      < (y % (g.height : Int)).toNat * g.width + g.width := by omega
    _ = ((y % (g.height : Int)).toNat + 1) * g.width := by ring
    _ ≤ g.height * g.width := Nat.mul_le_mul_right _ hy2
    _ = g.width * g.height := Nat.mul_comm _ _

theorem ensure_inx_eq (g : Grid) (x y : Int) (hw : 0 < g.width) (hh : 0 < g.height) :
    g._ensure_inx x y = ((g.cellIndex x y * 4 : Nat) : Int) := by
  have hx := emod_bounds x g.width hw
  have hy := emod_bounds y g.height hh
  unfold Grid._ensure_inx Grid._inx Grid.cellIndex
  rw [ensure_x_eq g x hw, ensure_y_eq g y hh]
  simp only [Color.SIZE]
  push_cast
  rw [Int.toNat_of_nonneg hx.1, Int.toNat_of_nonneg hy.1]
  ring

/-! ## Cells of a byte buffer -/

theorem cellAt_eq (data : List Byte) (m : Nat) :
    cellAt data m = ⟨data.getD (m * 4) 0, data.getD (m * 4 + 1) 0,
      data.getD (m * 4 + 2) 0, data.getD (m * 4 + 3) 0⟩ := by
  simp [cellAt, Color.ofArray, List.getElem?_take, List.getElem?_drop]

theorem typedSlice_cell (data : List Byte) (m : Nat) (h : m * 4 + 4 ≤ data.length) :
    typedSlice data ((m * 4 : Nat) : Int) (((m * 4 : Nat) : Int) + (Color.SIZE : Nat))
      = (data.drop (m * 4)).take 4 := by
  unfold typedSlice relativeIndex Color.SIZE
  have h1 : ¬ (((m * 4 : Nat) : Int) < 0) := by omega
  have h2 : ¬ (((m * 4 : Nat) : Int) + ((4 : Nat) : Int) < 0) := by omega
  simp only [h1, h2, if_false]
  have e1 : (min ((m * 4 : Nat) : Int) (data.length : Int)).toNat = m * 4 := by omega
  have e2 : (min (((m * 4 : Nat) : Int) + ((4 : Nat) : Int)) (data.length : Int)).toNat
      = m * 4 + 4 := by omega
  rw [e1, e2]
  congr 1
  omega

theorem typedSet_cell (data : List Byte) (m : Nat) (c : Color)
    (h : m * 4 + 4 ≤ data.length) :
    typedSet data c.toList ((m * 4 : Nat) : Int) = .ok (writeCell data m c) := by
  unfold typedSet writeCell
  have hl : c.toList.length = 4 := rfl
  rw [hl]
  have h1 : ¬ (((m * 4 : Nat) : Int) < 0 ∨ (data.length : Int) < ((m * 4 : Nat) : Int) + ((4 : Nat) : Int)) := by
    omega
  rw [if_neg h1, Int.toNat_ofNat]

theorem length_writeCell (data : List Byte) (m : Nat) (c : Color)
    (h : m * 4 + 4 ≤ data.length) : (writeCell data m c).length = data.length := by
  unfold writeCell
  have hl : c.toList.length = 4 := rfl
  simp only [List.length_append, List.length_take, List.length_drop, hl]
  omega

theorem getD_writeCell (data : List Byte) (m : Nat) (c : Color) (j : Nat)
    (h : m * 4 + 4 ≤ data.length) :
    (writeCell data m c).getD j 0 =
      if j < m * 4 then data.getD j 0
      else if j < m * 4 + 4 then c.toList.getD (j - m * 4) 0
      else data.getD j 0 := by
  unfold writeCell
  have hl : c.toList.length = 4 := rfl
  have ht : (data.take (m * 4)).length = m * 4 := by
    rw [List.length_take]; omega
  simp only [List.getD_eq_getElem?_getD]
  split
  · rename_i hj
    rw [List.append_assoc, List.getElem?_append_left (by omega), List.getElem?_take_of_lt hj]
  · rename_i hj
    split
    · rename_i hj2
      rw [List.append_assoc, List.getElem?_append_right (by omega), ht,
        List.getElem?_append_left (by omega)]
    · rename_i hj2
      rw [List.getElem?_append_right (by simp only [List.length_append, ht, hl]; omega)]
      simp only [List.length_append, ht, hl, List.getElem?_drop]
      congr 2
      omega

theorem cellAt_writeCell_same (data : List Byte) (m : Nat) (c : Color)
    (h : m * 4 + 4 ≤ data.length) : cellAt (writeCell data m c) m = c := by
  rw [cellAt_eq]
  simp only [getD_writeCell data m c _ h]
  have e0 : ¬ (m * 4 < m * 4) := by omega
  have e1 : ¬ (m * 4 + 1 < m * 4) := by omega
  have e2 : ¬ (m * 4 + 2 < m * 4) := by omega
  have e3 : ¬ (m * 4 + 3 < m * 4) := by omega
  have f0 : m * 4 < m * 4 + 4 := by omega
  have f1 : m * 4 + 1 < m * 4 + 4 := by omega
  have f2 : m * 4 + 2 < m * 4 + 4 := by omega
  have f3 : m * 4 + 3 < m * 4 + 4 := by omega
  have g0 : m * 4 - m * 4 = 0 := by omega
  have g1 : m * 4 + 1 - m * 4 = 1 := by omega
  have g2 : m * 4 + 2 - m * 4 = 2 := by omega
  have g3 : m * 4 + 3 - m * 4 = 3 := by omega
  simp only [e0, e1, e2, e3, f0, f1, f2, f3, g0, g1, g2, g3, if_true, if_false]
  rfl

theorem cellAt_writeCell_ne (data : List Byte) (m k : Nat) (c : Color)
    (h : m * 4 + 4 ≤ data.length) (hk : k ≠ m) :
    cellAt (writeCell data m c) k = cellAt data k := by
  rw [cellAt_eq, cellAt_eq]
  simp only [getD_writeCell data m c _ h]
  rcases Nat.lt_or_gt_of_ne hk with hlt | hgt
  · have e0 : k * 4 < m * 4 := by omega
    have e1 : k * 4 + 1 < m * 4 := by omega
    have e2 : k * 4 + 2 < m * 4 := by omega
    have e3 : k * 4 + 3 < m * 4 := by omega
    simp only [e0, e1, e2, e3, if_true]
  · have e0 : ¬ (k * 4 < m * 4) := by omega
    have e1 : ¬ (k * 4 + 1 < m * 4) := by omega
    have e2 : ¬ (k * 4 + 2 < m * 4) := by omega
    have e3 : ¬ (k * 4 + 3 < m * 4) := by omega
    have f0 : ¬ (k * 4 < m * 4 + 4) := by omega
    have f1 : ¬ (k * 4 + 1 < m * 4 + 4) := by omega
    have f2 : ¬ (k * 4 + 2 < m * 4 + 4) := by omega
    have f3 : ¬ (k * 4 + 3 < m * 4 + 4) := by omega
    simp only [e0, e1, e2, e3, f0, f1, f2, f3, if_false]

theorem get_eq_cellAt (g : Grid) (x y : Int) (hg : g.WF) :
    g.get x y = cellAt g.data (g.cellIndex x y) := by
  obtain ⟨hw, hh, hl⟩ := hg
  have hlt := cellIndex_lt g x y hw hh
  have hb : g.cellIndex x y * 4 + 4 ≤ g.data.length := by
    rw [hl, Color.SIZE]; omega
  unfold Grid.get
  simp only
  rw [ensure_inx_eq g x y hw hh, typedSlice_cell g.data _ hb]
  rfl

end Cellular

namespace Cellular

/-! ## Writing cells -/

theorem ok_bind {ε α β : Type} (a : α) (f : α → Except ε β) :
    (Except.ok a >>= f) = f a := rfl

theorem rawSet_cell (g : Grid) (m : Nat) (c : Color) (h : m * 4 + 4 ≤ g.data.length) :
    g._set ((m * 4 : Nat) : Int) c = .ok { g with data := writeCell g.data m c } := by
  unfold Grid._set
  rw [typedSet_cell g.data m c h]
  rfl

theorem set_cell (g : Grid) (x y : Int) (c : Color) (hg : g.WF) :
    g.set x y c = .ok { g with data := writeCell g.data (g.cellIndex x y) c } := by
  obtain ⟨hw, hh, hl⟩ := hg
  have hlt := cellIndex_lt g x y hw hh
  have hb : g.cellIndex x y * 4 + 4 ≤ g.data.length := by
    rw [hl, Color.SIZE]; omega
  unfold Grid.set
  rw [ensure_inx_eq g x y hw hh, typedSet_cell g.data _ c hb]
  rfl

theorem typedSet_all (a b : List Byte) (h : a.length = b.length) :
    typedSet a b 0 = .ok b := by
  unfold typedSet
  have h1 : ¬ ((0 : Int) < 0 ∨ (a.length : Int) < 0 + (b.length : Int)) := by omega
  rw [if_neg h1]
  simp [h]

theorem copy_eq (g : Grid) (hg : g.WF) : g.copy = .ok g := by
  obtain ⟨hw, hh, hl⟩ := hg
  unfold Grid.copy Grid.new Uint8ClampedArray.alloc ImageData.new
  have h1 : ¬ ((g.width : Int) * (g.height : Int) * ((Color.SIZE : Nat) : Int) < 0) := by
    have : (0 : Int) ≤ (g.width : Int) * (g.height : Int) * ((Color.SIZE : Nat) : Int) := by
      positivity
    omega
  have h2 : ¬ ((g.width : Int) ≤ 0 ∨ (g.height : Int) ≤ 0) := by omega
  simp only [h1, h2, if_false, bind, Except.bind]
  unfold Grid._blit
  have e : ((g.width : Int) * (g.height : Int) * ((Color.SIZE : Nat) : Int)).toNat
      = g.data.length := by
    rw [hl]
    have : (g.width : Int) * (g.height : Int) * ((Color.SIZE : Nat) : Int)
        = ((g.width * g.height * Color.SIZE : Nat) : Int) := by push_cast; ring
    rw [this, Int.toNat_ofNat]
  simp only
  rw [typedSet_all _ _ (by rw [List.length_replicate, e])]
  simp [bind, Except.bind, pure, Except.pure]

/-- A run of `n` consecutive `_set` calls starting at cell number `b`, as
performed by one row of the loops of `shade` and `shade_cell`. -/
theorem writeRun (c : Nat → Color) :
    ∀ (n b : Nat) (ret : Grid), (b + n) * 4 ≤ ret.data.length →
      ∃ ret' : Grid,
        (List.range n).foldlM
            (fun (st : Int × Grid) (x : Nat) => do
              let r ← st.2._set st.1 (c x)
              pure (st.1 + Color.SIZE, r))
            ((((b * 4 : Nat) : Int)), ret)
          = .ok ((((b + n) * 4 : Nat) : Int), ret')
        ∧ ret'.width = ret.width ∧ ret'.height = ret.height
        ∧ ret'.data.length = ret.data.length
        ∧ (∀ k, k < b ∨ b + n ≤ k → cellAt ret'.data k = cellAt ret.data k)
        ∧ (∀ x, x < n → cellAt ret'.data (b + x) = c x) := by
  intro n
  induction n with
  | zero =>
    intro b ret _
    exact ⟨ret, rfl, rfl, rfl, rfl, fun _ _ => rfl, fun x hx => absurd hx (Nat.not_lt_zero x)⟩
  | succ n ih =>
    intro b ret hlen
    obtain ⟨r1, hfold, hw1, hh1, hl1, hkeep, hnew⟩ := ih b ret (by omega)
    have hb : (b + n) * 4 + 4 ≤ r1.data.length := by omega
    refine ⟨{ r1 with data := writeCell r1.data (b + n) (c n) }, ?_, hw1, hh1, ?_, ?_, ?_⟩
    · rw [List.range_succ, List.foldlM_append, hfold]
      simp only [bind, Except.bind, List.foldlM_cons, List.foldlM_nil]
      rw [rawSet_cell r1 (b + n) (c n) hb]
      simp only [pure, Except.pure, Color.SIZE]
      congr 2
      push_cast
      ring
    · rw [← hl1]
      exact length_writeCell r1.data (b + n) (c n) hb
    · intro k hk
      rw [← hkeep k (by omega)]
      exact cellAt_writeCell_ne r1.data (b + n) k (c n) hb (by omega)
    · intro x hx
      by_cases hxn : x = n
      · subst hxn
        exact cellAt_writeCell_same r1.data (b + x) (c x) hb
      · rw [← hnew x (by omega)]
        exact cellAt_writeCell_ne r1.data (b + n) (b + x) (c n) hb (by omega)

/-- The rows of the nested loops of `shade` and `shade_cell`: after `n` rows the
first `n * w` cells hold the colors computed for them. -/
theorem writeRows (w : Nat) (c : Nat → Nat → Color) :
    ∀ (n : Nat) (ret : Grid), n * w * 4 ≤ ret.data.length →
      ∃ ret' : Grid,
        (List.range n).foldlM
            (fun (st : Int × Grid) (y : Nat) =>
              (List.range w).foldlM
                (fun (st : Int × Grid) (x : Nat) => do
                  let r ← st.2._set st.1 (c y x)
                  pure (st.1 + Color.SIZE, r))
                st)
            ((0 : Int), ret)
          = .ok ((((n * w * 4 : Nat)) : Int), ret')
        ∧ ret'.width = ret.width ∧ ret'.height = ret.height
        ∧ ret'.data.length = ret.data.length
        ∧ (∀ k, n * w ≤ k → cellAt ret'.data k = cellAt ret.data k)
        ∧ (∀ y x, y < n → x < w → cellAt ret'.data (y * w + x) = c y x) := by
  intro n
  induction n with
  | zero =>
    intro ret _
    refine ⟨ret, ?_, rfl, rfl, rfl, fun _ _ => rfl, fun y x hy => absurd hy (Nat.not_lt_zero y)⟩
    simp [pure, Except.pure]
  | succ n ih =>
    intro ret hlen
    have hmul : (n + 1) * w = n * w + w := by ring
    obtain ⟨r1, hfold, hw1, hh1, hl1, hkeep, hnew⟩ := ih ret (by rw [hmul] at hlen; omega)
    obtain ⟨r2, hrun, hw2, hh2, hl2, hkeep2, hnew2⟩ :=
      writeRun (c n) w (n * w) r1 (by rw [hl1, ← hmul]; exact hlen)
    refine ⟨r2, ?_, hw2.trans hw1, hh2.trans hh1, hl2.trans hl1, ?_, ?_⟩
    · rw [List.range_succ, List.foldlM_append, hfold, ok_bind]
      simp only [List.foldlM_cons, List.foldlM_nil, bind_pure]
      rw [hrun, hmul]
    · intro k hk
      rw [hkeep2 k (by rw [hmul] at hk; omega)]
      exact hkeep k (by rw [hmul] at hk; omega)
    · intro y x hy hx
      by_cases hyn : y = n
      · subst hyn
        exact hnew2 x hx
      · have hylt : y < n := by omega
        have : (y + 1) * w ≤ n * w := Nat.mul_le_mul_right w hylt
        have hlt : y * w + x < n * w := by
          have e2 : (y + 1) * w = y * w + w := by ring
          omega
        rw [hkeep2 _ (Or.inl hlt)]
        exact hnew y x hylt hx

end Cellular

namespace Cellular

/-! ## The wrapped lookup -/

theorem cellIndex_wrap (g : Grid) (x y : Int) :
    g.cellIndex (x % (g.width : Int)) (y % (g.height : Int)) = g.cellIndex x y := by
  unfold Grid.cellIndex
  rw [Int.emod_emod, Int.emod_emod]

theorem cellIndex_add_wrap (g : Grid) (x y i j : Int) :
    g.cellIndex (x % (g.width : Int) + i) (y % (g.height : Int) + j)
      = g.cellIndex (x + i) (y + j) := by
  unfold Grid.cellIndex
  rw [Int.emod_add_emod, Int.emod_add_emod]

theorem get_wrap (g : Grid) (x y : Int) (hg : g.WF) :
    g.get x y = g.get (x % (g.width : Int)) (y % (g.height : Int)) := by
  rw [get_eq_cellAt g x y hg, get_eq_cellAt g _ _ hg, cellIndex_wrap]

theorem get_add_wrap (g : Grid) (x y i j : Int) (hg : g.WF) :
    g.get (x % (g.width : Int) + i) (y % (g.height : Int) + j) = g.get (x + i) (y + j) := by
  rw [get_eq_cellAt g _ _ hg, get_eq_cellAt g (x + i) (y + j) hg, cellIndex_add_wrap]

/-! ## Colors -/

theorem ofArray_toList (c : Color) : Color.ofArray c.toList = c := by
  cases c; rfl

theorem equals_iff (c d : Color) : c.equals d = true ↔ c = d := by
  cases c; cases d
  simp [Color.equals, Color.SIZE, Color.toList, List.range, List.range.loop]

theorem cell_color (g : Grid) (x y : Int) : (Cell.new g x y).color = g.get x y :=
  ofArray_toList _

/-! ## shade_cell -/

theorem blit_all (a b : Grid) (h : a.data.length = b.data.length) :
    a._blit b = .ok { a with data := b.data } := by
  unfold Grid._blit
  rw [typedSet_all _ _ h]
  rfl

/-- The buffer after `shade_cell`: cell number `y * width + x` holds the color
that the callback computes from the cell of the grid before the call. -/
theorem shade_cell_cells (g : Grid) (f : Cell → Color) (hg : g.WF) :
    ∃ g' : Grid, g.shade_cell f = .ok g' ∧ g'.width = g.width ∧ g'.height = g.height
      ∧ g'.data.length = g.data.length
      ∧ ∀ y x : Nat, y < g.height → x < g.width →
          cellAt g'.data (y * g.width + x) = f (Cell.new g x y) := by
  obtain ⟨r, hfold, _, _, hl, _, hnew⟩ :=
    writeRows g.width (fun y x => f (Cell.new g x y)) g.height g
      (by rw [hg.2.2, Nat.mul_comm g.height g.width]; exact Nat.le_of_eq rfl)
  refine ⟨{ g with data := r.data }, ?_, rfl, rfl, hl, hnew⟩
  unfold Grid.shade_cell
  rw [copy_eq g hg, ok_bind, hfold, ok_bind]
  exact blit_all g r hl.symm

/-- The grid after `shade_cell`, read with the wrapped lookup. -/
theorem shade_cell_get (g : Grid) (f : Cell → Color) (hg : g.WF) :
    ∃ g' : Grid, g.shade_cell f = .ok g' ∧ g'.WF ∧ g'.width = g.width
      ∧ g'.height = g.height
      ∧ ∀ x y : Int, g'.get x y
          = f (Cell.new g (x % (g.width : Int)) (y % (g.height : Int))) := by
  obtain ⟨g', hrun, hw, hh, hl, hcells⟩ := shade_cell_cells g f hg
  have hg' : g'.WF := ⟨hw ▸ hg.1, hh ▸ hg.2.1, by rw [hl, hw, hh]; exact hg.2.2⟩
  refine ⟨g', hrun, hg', hw, hh, ?_⟩
  intro x y
  have hx := emod_bounds x g.width hg.1
  have hy := emod_bounds y g.height hg.2.1
  rw [get_eq_cellAt g' x y hg']
  unfold Grid.cellIndex
  rw [hw, hh, hcells _ _ (by omega) (by omega),
    Int.toNat_of_nonneg hx.1, Int.toNat_of_nonneg hy.1]

/-! ## Counting neighbors -/

theorem neighbors_sum (cell : Cell) (p : Color → Bool) :
    cell.neighbors p =
      (p (cell.grid.get (cell.x + -1) (cell.y + -1))).toNat
      + (p (cell.grid.get (cell.x + -1) (cell.y + 0))).toNat
      + (p (cell.grid.get (cell.x + -1) (cell.y + 1))).toNat
      + (p (cell.grid.get (cell.x + 0) (cell.y + -1))).toNat
      + (p (cell.grid.get (cell.x + 0) (cell.y + 1))).toNat
      + (p (cell.grid.get (cell.x + 1) (cell.y + -1))).toNat
      + (p (cell.grid.get (cell.x + 1) (cell.y + 0))).toNat
      + (p (cell.grid.get (cell.x + 1) (cell.y + 1))).toNat := by
  have key : ∀ (b : Bool) (n : Nat), (if b = true then n + 1 else n) = n + b.toNat := by
    intro b n; cases b <;> simp
  simp only [Cell.neighbors, List.foldl_cons, List.foldl_nil, key]
  simp

end Cellular

namespace Cellular

theorem sum_offsets (f : Int → Nat) :
    ∑ i ∈ ({-1, 0, 1} : Finset Int), f i = f (-1) + f 0 + f 1 := by
  rw [Finset.sum_insert (by decide), Finset.sum_insert (by decide), Finset.sum_singleton]
  ring

theorem neighbors_eq_spec (g : Grid) (x y : Int) (p : Color → Bool) :
    (Cell.new g x y).neighbors p = neighborsSpec g x y p := by
  have key : ∀ b : Bool, (if b = true then 1 else 0) = b.toNat := by
    intro b; cases b <;> rfl
  rw [neighbors_sum]
  unfold neighborsSpec
  rw [Finset.card_filter, Finset.sum_product]
  simp only [sum_offsets, Cell.new, ne_eq, Prod.mk.injEq]
  norm_num [key]
  ring

end Cellular

namespace Cellular

/-! ## The Life rule -/

theorem white_ne_black : WHITE ≠ BLACK := by decide

theorem lifeRule_eq (cell : Cell) :
    lifeRule cell
      = if lifeBool (cell.equals WHITE) (cell.neighbors (fun c => c.equals WHITE)) = true
          then WHITE else BLACK := by
  unfold lifeRule lifeBool
  simp only
  by_cases h1 : (cell.equals WHITE && cell.neighbors (fun c => c.equals WHITE) == 2
      || cell.neighbors (fun c => c.equals WHITE) == 3) = true
  · rw [if_pos h1, if_pos h1]
  · rw [if_neg h1, if_neg h1]
    have h3 : ¬ ((cell.neighbors (fun c => c.equals WHITE) == 3) = true) := by
      intro h; apply h1; rw [h]; simp
    have h2 : ¬ ((cell.equals BLACK && cell.neighbors (fun c => c.equals WHITE) == 3) = true) := by
      intro h; apply h3; simp only [Bool.and_eq_true] at h; exact h.2
    rw [if_neg h2]

end Cellular

namespace Cellular

/-! ## Neighboring columns and rows on the torus -/

theorem emod_succ_cases (x : Int) (w : Nat) (hw : 0 < w) :
    ((x + 1) % (w : Int) = x % (w : Int) + 1 ∧ x % (w : Int) + 1 < w)
      ∨ ((x + 1) % (w : Int) = 0 ∧ x % (w : Int) + 1 = w) := by
  have hb := emod_bounds x w hw
  rw [← Int.emod_add_emod]
  by_cases h : x % (w : Int) + 1 < w
  · exact Or.inl ⟨Int.emod_eq_of_lt (by omega) h, h⟩
  · have e : x % (w : Int) + 1 = w := by omega
    exact Or.inr ⟨by rw [e, Int.emod_self], e⟩

theorem emod_pred_cases (x : Int) (w : Nat) (hw : 0 < w) :
    ((x + -1) % (w : Int) = x % (w : Int) - 1 ∧ 1 ≤ x % (w : Int))
      ∨ ((x + -1) % (w : Int) = w - 1 ∧ x % (w : Int) = 0) := by
  have hb := emod_bounds x w hw
  rw [← Int.emod_add_emod]
  by_cases h : 1 ≤ x % (w : Int)
  · exact Or.inl ⟨Int.emod_eq_of_lt (by omega) (by omega), h⟩
  · have e : x % (w : Int) = 0 := by omega
    refine Or.inr ⟨?_, e⟩
    rw [e, ← Int.add_emod_self]
    exact Int.emod_eq_of_lt (by omega) (by omega)

/-! ## One generation -/

theorem lifeRule_new (g : Grid) (x y : Int) :
    lifeRule (Cell.new g x y)
      = if lifeBool ((g.get x y).equals WHITE)
            ((Cell.new g x y).neighbors (fun c => c.equals WHITE)) = true
          then WHITE else BLACK := by
  rw [lifeRule_eq]
  unfold Cell.equals
  rw [cell_color]

theorem neighbors_wrap (g : Grid) (x y : Int) (p : Color → Bool) (hg : g.WF) :
    (Cell.new g (x % (g.width : Int)) (y % (g.height : Int))).neighbors p
      = (Cell.new g x y).neighbors p := by
  rw [neighbors_sum, neighbors_sum]
  simp only [Cell.new, get_add_wrap g x y _ _ hg]

theorem lifeRule_wrap (g : Grid) (x y : Int) (hg : g.WF) :
    lifeRule (Cell.new g (x % (g.width : Int)) (y % (g.height : Int)))
      = lifeRule (Cell.new g x y) := by
  rw [lifeRule_new, lifeRule_new, neighbors_wrap g x y _ hg, ← get_wrap g x y hg]

/-- One generation succeeds on a well-formed grid and gives every position
the color that the rule computes from the grid before it. -/
theorem step_get (g : Grid) (hg : g.WF) :
    ∃ g' : Grid, step g = .ok g' ∧ g'.WF ∧ g'.width = g.width ∧ g'.height = g.height
      ∧ ∀ x y : Int, g'.get x y = lifeRule (Cell.new g x y) := by
  obtain ⟨g', hrun, hg', hw, hh, hget⟩ := shade_cell_get g lifeRule hg
  refine ⟨g', hrun, hg', hw, hh, ?_⟩
  intro x y
  rw [hget x y, lifeRule_wrap g x y hg]

/-! ## Patterns that are a product of a column pattern and a row pattern -/

theorem ite_equals_white (b : Bool) :
    (if b = true then WHITE else BLACK).equals WHITE = b := by
  cases b <;> decide

theorem neighbors_separable (g : Grid) (A B : Int → Bool)
    (H : ∀ x y : Int, g.get x y = if (A x && B y) = true then WHITE else BLACK)
    (x y : Int) :
    (Cell.new g x y).neighbors (fun c => c.equals WHITE)
      = count8 (A (x + -1)) (A x) (A (x + 1)) (B (y + -1)) (B y) (B (y + 1)) := by
  rw [neighbors_sum]
  simp only [Cell.new, H, ite_equals_white, Int.add_zero]
  rfl

theorem lifeRule_separable (g : Grid) (A B : Int → Bool)
    (H : ∀ x y : Int, g.get x y = if (A x && B y) = true then WHITE else BLACK)
    (x y : Int) :
    lifeRule (Cell.new g x y)
      = if lifeBool (A x && B y)
            (count8 (A (x + -1)) (A x) (A (x + 1)) (B (y + -1)) (B y) (B (y + 1))) = true
          then WHITE else BLACK := by
  rw [lifeRule_new, neighbors_separable g A B H, H, ite_equals_white]

/-- With at most one cell of the pattern in every window of adjacent columns
and of adjacent rows, no cell is alive after the rule. -/
theorem lifeBool_isolated :
    ∀ am a0 ap bm b0 bp : Bool,
      (a0 = true → am = false ∧ ap = false) → (b0 = true → bm = false ∧ bp = false) →
      lifeBool (a0 && b0) (count8 am a0 ap bm b0 bp) = false
        ∧ (a0 = true → b0 = true → count8 am a0 ap bm b0 bp = 0) := by
  decide

/-- With the pattern two columns wide and two rows high on a torus of at least
four columns and rows, the rule keeps every cell. -/
theorem lifeBool_block :
    ∀ am a0 ap bm b0 bp : Bool,
      ¬ (am = true ∧ ap = true) → (a0 = true → am = true ∨ ap = true) →
      ¬ (bm = true ∧ bp = true) → (b0 = true → bm = true ∨ bp = true) →
      lifeBool (a0 && b0) (count8 am a0 ap bm b0 bp) = (a0 && b0) := by
  decide

/-! ## Grids are determined by their cells -/

theorem cellIndex_of_nat (g : Grid) (m : Nat) (hw : 0 < g.width)
    (hm : m < g.width * g.height) :
    g.cellIndex ((m % g.width : Nat) : Int) ((m / g.width : Nat) : Int) = m := by
  unfold Grid.cellIndex
  have h1 : m / g.width < g.height := by
    rw [Nat.div_lt_iff_lt_mul hw, Nat.mul_comm]; exact hm
  have h2 : m % g.width < g.width := Nat.mod_lt _ hw
  have h3 : ((m / g.width : Nat) : Int) < (g.height : Int) := by exact_mod_cast h1
  have h4 : ((m % g.width : Nat) : Int) < (g.width : Int) := by exact_mod_cast h2
  rw [Int.emod_eq_of_lt (Int.ofNat_nonneg _) h3, Int.emod_eq_of_lt (Int.ofNat_nonneg _) h4,
    Int.toNat_ofNat, Int.toNat_ofNat]
  exact Nat.div_add_mod' m g.width

theorem data_ext (a b : List Byte) (hl : a.length = b.length)
    (h : ∀ m, m * 4 < a.length → cellAt a m = cellAt b m) : a = b := by
  apply List.ext_getElem?
  intro j
  by_cases hj : j < a.length
  · have hc := h (j / 4) (by omega)
    rw [cellAt_eq, cellAt_eq] at hc
    simp only [Color.mk.injEq, List.getD_eq_getElem?_getD] at hc
    have hja : a[j]? = some a[j] := List.getElem?_eq_getElem hj
    have hj2 : j < b.length := hl ▸ hj
    have hjb : b[j]? = some b[j] := List.getElem?_eq_getElem hj2
    have hcase : j = j / 4 * 4 ∨ j = j / 4 * 4 + 1 ∨ j = j / 4 * 4 + 2 ∨ j = j / 4 * 4 + 3 := by
      omega
    rw [hja, hjb]
    rcases hcase with e | e | e | e
    · have := hc.1; rw [← e, hja, hjb] at this; simpa using this
    · have := hc.2.1; rw [← e, hja, hjb] at this; simpa using this
    · have := hc.2.2.1; rw [← e, hja, hjb] at this; simpa using this
    · have := hc.2.2.2; rw [← e, hja, hjb] at this; simpa using this
  · rw [List.getElem?_eq_none (by omega), List.getElem?_eq_none (by omega)]

theorem grid_ext (g g' : Grid) (hg : g.WF) (hg' : g'.WF) (hw : g'.width = g.width)
    (hh : g'.height = g.height) (h : ∀ x y : Int, g'.get x y = g.get x y) : g' = g := by
  have hl : g'.data.length = g.data.length := by
    rw [hg.2.2, hg'.2.2, hw, hh]
  have hd : g'.data = g.data := by
    apply data_ext _ _ hl
    intro m hm
    have hm' : m < g.width * g.height := by
      rw [hl, hg.2.2, Color.SIZE] at hm; omega
    have e := h ((m % g.width : Nat) : Int) ((m / g.width : Nat) : Int)
    rw [get_eq_cellAt g' _ _ hg', get_eq_cellAt g _ _ hg, cellIndex_of_nat g m hg.1 hm'] at e
    have e2 : g'.cellIndex ((m % g.width : Nat) : Int) ((m / g.width : Nat) : Int) = m := by
      have := cellIndex_of_nat g' m hg'.1 (by rw [hw, hh]; exact hm')
      rw [hw] at this
      exact this
    rw [e2] at e
    exact e
  cases g; cases g'
  simp only at hw hh hd
  subst hw; subst hh; subst hd
  rfl

end Cellular

namespace Cellular

/-! ## Distinct cells have disjoint bytes -/

theorem cellIndex_inj (g : Grid) (x y x2 y2 : Int) (hw : 0 < g.width) (hh : 0 < g.height)
    (h : g.cellIndex x y = g.cellIndex x2 y2) :
    x % (g.width : Int) = x2 % (g.width : Int)
      ∧ y % (g.height : Int) = y2 % (g.height : Int) := by
  unfold Grid.cellIndex at h
  have hx := emod_bounds x g.width hw
  have hy := emod_bounds y g.height hh
  have hx2 := emod_bounds x2 g.width hw
  have hy2 := emod_bounds y2 g.height hh
  have a1 : (x % (g.width : Int)).toNat < g.width := by omega
  have a2 : (x2 % (g.width : Int)).toNat < g.width := by omega
  have hm := congrArg (fun n => n % g.width) h
  have hd := congrArg (fun n => n / g.width) h
  simp only [Nat.add_comm (_ * g.width), Nat.add_mul_mod_self_right,
    Nat.add_mul_div_right _ _ hw, Nat.mod_eq_of_lt a1, Nat.mod_eq_of_lt a2,
    Nat.div_eq_of_lt a1, Nat.div_eq_of_lt a2, Nat.zero_add] at hm hd
  constructor <;> omega

theorem set_frame (g : Grid) (x y x2 y2 : Int) (c : Color) (hg : g.WF)
    (hne : g.cellIndex x2 y2 ≠ g.cellIndex x y) :
    ({ g with data := writeCell g.data (g.cellIndex x y) c } : Grid).get x2 y2
      = g.get x2 y2 := by
  have hlt := cellIndex_lt g x y hg.1 hg.2.1
  have hb : g.cellIndex x y * 4 + 4 ≤ g.data.length := by
    rw [hg.2.2, Color.SIZE]; omega
  have hg' : ({ g with data := writeCell g.data (g.cellIndex x y) c } : Grid).WF :=
    ⟨hg.1, hg.2.1, (length_writeCell g.data _ c hb).trans hg.2.2⟩
  rw [get_eq_cellAt _ x2 y2 hg', get_eq_cellAt g x2 y2 hg]
  exact cellAt_writeCell_ne g.data (g.cellIndex x y) (g.cellIndex x2 y2) c hb hne

end Cellular

namespace Cellular

/-! ## Construction and copies in a store -/

theorem grid_new_pos (w h : Nat) (hw : 0 < w) (hh : 0 < h) :
    Grid.new w h = .ok ⟨w, h, List.replicate (w * h * Color.SIZE) 0⟩ := by
  unfold Grid.new Uint8ClampedArray.alloc ImageData.new
  have h1 : ¬ ((w : Int) * (h : Int) * ((Color.SIZE : Nat) : Int) < 0) := by
    have : (0 : Int) ≤ (w : Int) * (h : Int) * ((Color.SIZE : Nat) : Int) := by
      positivity
    omega
  have h2 : ¬ ((w : Int) ≤ 0 ∨ (h : Int) ≤ 0) := by omega
  have e : ((w : Int) * (h : Int) * ((Color.SIZE : Nat) : Int)).toNat
      = w * h * Color.SIZE := by
    have : (w : Int) * (h : Int) * ((Color.SIZE : Nat) : Int)
        = ((w * h * Color.SIZE : Nat) : Int) := by push_cast; ring
    rw [this, Int.toNat_ofNat]
  rw [if_neg h1, ok_bind, if_neg h2, e, Int.toNat_ofNat, Int.toNat_ofNat]

theorem read_append (s : Store) (o : GridObj) (b : List Byte) (ho : o.data < s.length) :
    o.read (s ++ [b]) = o.read s := by
  unfold GridObj.read
  simp only [List.getD_eq_getElem?_getD, List.getElem?_append_left ho]

theorem read_last (s : Store) (w h : Nat) (b : List Byte) :
    (⟨w, h, s.length⟩ : GridObj).read (s ++ [b]) = ⟨w, h, b⟩ := by
  unfold GridObj.read
  simp

theorem set_last (s : Store) (a b : List Byte) :
    (s ++ [a]).set s.length b = s ++ [b] := by
  rw [List.set_append_right _ _ (Nat.le_refl _)]
  simp

/-- The store and the object that `copy` returns. -/
theorem copy_store (s : Store) (o : GridObj) (ho : o.data < s.length)
    (hg : (o.read s).WF) :
    GridObj.copy s o
      = .ok (s ++ [(o.read s).data], ⟨o.width, o.height, s.length⟩) := by
  unfold GridObj.copy GridObj.new
  rw [grid_new_pos o.width o.height hg.1 hg.2.1]
  simp only [ok_bind, pure, Except.pure]
  unfold GridObj._blit
  rw [read_last, read_append s o _ ho,
    blit_all _ _ (by rw [List.length_replicate]; exact hg.2.2.symm)]
  simp only [ok_bind, pure, Except.pure]
  rw [set_last]

end Cellular

namespace Cellular

/-! ## shade -/

/-- The buffer after `shade`: cell number `y * width + x` holds the color that
the callback computes for `(x, y)`. -/
theorem shade_cells (g : Grid) (f : Int → Int → Color) (hg : g.WF) :
    ∃ g' : Grid, g.shade f = .ok g' ∧ g'.width = g.width ∧ g'.height = g.height
      ∧ g'.data.length = g.data.length
      ∧ ∀ y x : Nat, y < g.height → x < g.width →
          cellAt g'.data (y * g.width + x) = f x y := by
  obtain ⟨r, hfold, hw, hh, hl, _, hnew⟩ :=
    writeRows g.width (fun y x => f x y) g.height g
      (by rw [hg.2.2, Nat.mul_comm g.height g.width]; exact Nat.le_of_eq rfl)
  refine ⟨r, ?_, hw, hh, hl, hnew⟩
  unfold Grid.shade
  rw [hfold, ok_bind]
  rfl

theorem visitRun (y : Int) :
    ∀ (n : Nat) (b : Int) (t : List (Int × Int × Int)),
      (List.range n).foldl
          (fun (st : Int × List (Int × Int × Int)) (x : Nat) =>
            (st.1 + Color.SIZE, st.2 ++ [(st.1, (x : Int), y)]))
          (b, t)
        = (b + 4 * n, t ++ (List.range n).map fun (x : Nat) => (b + 4 * (x : Int), (x : Int), y)) := by
  intro n
  induction n with
  | zero => intro b t; simp
  | succ n ih =>
    intro b t
    rw [List.range_succ, List.foldl_append, ih]
    simp only [List.foldl_cons, List.foldl_nil, List.map_append, List.map_cons, List.map_nil,
      List.append_assoc, Color.SIZE]
    congr 1
    push_cast
    ring

theorem visitRows (w : Nat) :
    ∀ n : Nat,
      (List.range n).foldl
          (fun (st : Int × List (Int × Int × Int)) (y : Nat) =>
            (List.range w).foldl
              (fun (st : Int × List (Int × Int × Int)) (x : Nat) =>
                (st.1 + Color.SIZE, st.2 ++ [(st.1, (x : Int), (y : Int))]))
              st)
          ((0 : Int), [])
        = (4 * ((n : Int) * w),
            (List.range n).flatMap fun (y : Nat) =>
              (List.range w).map fun (x : Nat) =>
                ((((y : Int) * w + (x : Int)) * 4), (x : Int), (y : Int))) := by
  intro n
  induction n with
  | zero => simp
  | succ n ih =>
    rw [List.range_succ, List.foldl_append, ih]
    simp only [List.foldl_cons, List.foldl_nil, List.flatMap_append, List.flatMap_cons,
      List.flatMap_nil, List.append_nil]
    rw [visitRun]
    congr 1
    · push_cast; ring
    · congr 1
      apply List.map_congr_left
      intro x _
      congr 1
      ring

end Cellular

namespace Cellular

/-! ## Clamping, fresh grids and translations -/

theorem clampByte_val (v : Int) : ((clampByte v : Nat) : Int) = min (max v 0) 255 := by
  unfold clampByte
  by_cases h1 : v < 0
  · rw [if_pos h1]
    have : max v 0 = 0 := by omega
    rw [this]
    rfl
  · rw [if_neg h1]
    by_cases h2 : 255 < v
    · rw [if_pos h2]
      have : min (max v 0) 255 = 255 := by omega
      rw [this]
      rfl
    · rw [if_neg h2]
      have hlt : v.toNat < 256 := by omega
      have hv : ((Fin.ofNat v.toNat : Fin 256) : Nat) = v.toNat := Nat.mod_eq_of_lt hlt
      rw [hv]
      omega

theorem cellAt_replicate (n m : Nat) :
    cellAt (List.replicate n (0 : Byte)) m = ⟨0, 0, 0, 0⟩ := by
  have h : ∀ j : Nat, (List.replicate n (0 : Byte)).getD j 0 = 0 := by
    intro j
    rw [List.getD_eq_getElem?_getD, List.getElem?_replicate]
    split <;> rfl
  rw [cellAt_eq, h, h, h, h]

theorem grid_new_error (w h : Int) :
    (w * h < 0 → Grid.new w h = .error .RangeError)
      ∧ (0 ≤ w * h → (w ≤ 0 ∨ h ≤ 0) → Grid.new w h = .error .InvalidDimensions) := by
  unfold Grid.new Uint8ClampedArray.alloc ImageData.new Color.SIZE
  constructor
  · intro hneg
    have h1 : w * h * ((4 : Nat) : Int) < 0 := by omega
    rw [if_pos h1]
    rfl
  · intro hpos hdim
    have h1 : ¬ (w * h * ((4 : Nat) : Int) < 0) := by omega
    rw [if_neg h1, ok_bind, if_pos hdim]

theorem grid_new_ok (w h : Int) (hw : 0 < w) (hh : 0 < h) :
    Grid.new w h
      = .ok ⟨w.toNat, h.toNat, List.replicate (w.toNat * h.toNat * Color.SIZE) 0⟩ := by
  have e := grid_new_pos w.toNat h.toNat (by omega) (by omega)
  rw [Int.toNat_of_nonneg (by omega), Int.toNat_of_nonneg (by omega)] at e
  exact e

/-- A translation that holds on the positions of the grid holds on all
integers. -/
theorem shift_of_range (g g2 : Grid) (a b : Int) (hg : g.WF) (hg2 : g2.WF)
    (hw : g2.width = g.width) (hh : g2.height = g.height)
    (h : ∀ x < g.width, ∀ y < g.height,
      g2.get (x : Int) (y : Int) = g.get ((x : Int) + a) ((y : Int) + b)) :
    ∀ x y : Int, g2.get x y = g.get (x + a) (y + b) := by
  intro x y
  have hx := emod_bounds x g.width hg.1
  have hy := emod_bounds y g.height hg.2.1
  have e := h (x % (g.width : Int)).toNat (by omega) (y % (g.height : Int)).toNat (by omega)
  rw [Int.toNat_of_nonneg hx.1, Int.toNat_of_nonneg hy.1, get_add_wrap g x y a b hg] at e
  rw [get_wrap g2 x y hg2, hw, hh]
  exact e

theorem lifeRule_shift (g g2 : Grid) (a b : Int)
    (h : ∀ x y : Int, g2.get x y = g.get (x + a) (y + b)) (x y : Int) :
    lifeRule (Cell.new g2 x y) = lifeRule (Cell.new g (x + a) (y + b)) := by
  have e : ∀ i j : Int, g2.get (x + i) (y + j) = g.get (x + a + i) (y + b + j) := by
    intro i j
    rw [h (x + i) (y + j)]
    congr 1 <;> ring
  rw [lifeRule_new, lifeRule_new, neighbors_sum, neighbors_sum, h x y]
  simp only [Cell.new, e]

theorem lifeRule_binary (cell : Cell) : lifeRule cell = WHITE ∨ lifeRule cell = BLACK := by
  rw [lifeRule_eq]
  split
  · exact Or.inl rfl
  · exact Or.inr rfl

end Cellular

namespace Cellular

/-! ## Lines and triples of lines on the torus -/

/-- One generation on a product pattern whose rule values form a product
pattern again. -/
theorem step_pattern (g : Grid) (A B A' B' : Int → Bool) (hg : g.WF)
    (H : ∀ x y : Int, g.get x y = if (A x && B y) = true then WHITE else BLACK)
    (hrule : ∀ x y : Int,
      lifeBool (A x && B y)
          (count8 (A (x + -1)) (A x) (A (x + 1)) (B (y + -1)) (B y) (B (y + 1)))
        = (A' x && B' y)) :
    ∃ g' : Grid, step g = .ok g' ∧ g'.WF ∧ g'.width = g.width ∧ g'.height = g.height
      ∧ ∀ x y : Int, g'.get x y = if (A' x && B' y) = true then WHITE else BLACK := by
  obtain ⟨g', hrun, hg', hw', hh', hget⟩ := step_get g hg
  refine ⟨g', hrun, hg', hw', hh', ?_⟩
  intro x y
  rw [hget x y, lifeRule_separable g A B H, hrule x y]

theorem triple_and (n : Nat) (c x : Int) (hn : 5 ≤ n) :
    (onTriple n c (x + -1) && onTriple n c x && onTriple n c (x + 1)) = onPoint n c x := by
  have hpos : 0 < n := by omega
  have hb := emod_bounds x n hpos
  have hc := emod_bounds c n hpos
  have hs := emod_succ_cases x n hpos
  have hp := emod_pred_cases x n hpos
  have hcs := emod_succ_cases c n hpos
  have hcp := emod_pred_cases c n hpos
  rw [← Int.sub_eq_add_neg] at hcp
  rw [Bool.eq_iff_iff]
  simp only [onTriple, onPoint, Bool.and_eq_true, decide_eq_true_eq]
  omega

theorem point_or (n : Nat) (c x : Int) (hn : 3 ≤ n) :
    (onPoint n c (x + -1) || onPoint n c x || onPoint n c (x + 1)) = onTriple n c x := by
  have hpos : 0 < n := by omega
  have hb := emod_bounds x n hpos
  have hc := emod_bounds c n hpos
  have hs := emod_succ_cases x n hpos
  have hp := emod_pred_cases x n hpos
  have hcs := emod_succ_cases c n hpos
  have hcp := emod_pred_cases c n hpos
  rw [← Int.sub_eq_add_neg] at hcp
  rw [Bool.eq_iff_iff]
  simp only [onTriple, onPoint, Bool.or_eq_true, decide_eq_true_eq]
  omega

theorem point_unique (n : Nat) (c x : Int) (hn : 3 ≤ n) :
    ¬ (onPoint n c (x + -1) = true ∧ onPoint n c x = true)
      ∧ ¬ (onPoint n c x = true ∧ onPoint n c (x + 1) = true)
      ∧ ¬ (onPoint n c (x + -1) = true ∧ onPoint n c (x + 1) = true) := by
  have hpos : 0 < n := by omega
  have hb := emod_bounds x n hpos
  have hs := emod_succ_cases x n hpos
  have hp := emod_pred_cases x n hpos
  simp only [onPoint, decide_eq_true_eq]
  omega

/-- The rule on a row of three: the cells of the middle column in the three
rows around it are alive afterwards. -/
theorem lifeBool_row :
    ∀ am a0 ap bm b0 bp : Bool,
      ¬ (bm = true ∧ b0 = true) → ¬ (b0 = true ∧ bp = true) → ¬ (bm = true ∧ bp = true) →
      lifeBool (a0 && b0) (count8 am a0 ap bm b0 bp)
        = ((am && a0 && ap) && (bm || b0 || bp)) := by
  decide

/-- The rule on a column of three: the cells of the middle row in the three
columns around it are alive afterwards. -/
theorem lifeBool_column :
    ∀ am a0 ap bm b0 bp : Bool,
      ¬ (am = true ∧ a0 = true) → ¬ (a0 = true ∧ ap = true) → ¬ (am = true ∧ ap = true) →
      lifeBool (a0 && b0) (count8 am a0 ap bm b0 bp)
        = ((am || a0 || ap) && (bm && b0 && bp)) := by
  decide

end Cellular

namespace Cellular

/-! ## The tori of one and of two columns and rows -/

theorem get_congr_mod (g : Grid) (x y x2 y2 : Int) (hg : g.WF)
    (hx : x % (g.width : Int) = x2 % (g.width : Int))
    (hy : y % (g.height : Int) = y2 % (g.height : Int)) :
    g.get x y = g.get x2 y2 := by
  rw [get_eq_cellAt g x y hg, get_eq_cellAt g x2 y2 hg]
  unfold Grid.cellIndex
  rw [hx, hy]

theorem evaluated_offsets :
    Cell.neighborsEvaluated
      = [(-1, -1), (-1, 0), (-1, 1), (0, -1), (0, 1), (1, -1), (1, 0), (1, 1)] := rfl

theorem get_one_by_one (g : Grid) (x y x2 y2 : Int) (hg : g.WF)
    (hw : g.width = 1) (hh : g.height = 1) : g.get x2 y2 = g.get x y := by
  apply get_congr_mod g x2 y2 x y hg
  · rw [hw]; omega
  · rw [hh]; omega

theorem neighbors_one_by_one (g : Grid) (x y : Int) (p : Color → Bool) (hg : g.WF)
    (hw : g.width = 1) (hh : g.height = 1) :
    (Cell.new g x y).neighbors p = if p (g.get x y) = true then 8 else 0 := by
  rw [neighbors_sum]
  simp only [Cell.new, get_one_by_one g x y _ _ hg hw hh]
  cases p (g.get x y) <;> rfl

theorem neighbors_two_by_two (g : Grid) (x y : Int) (p : Color → Bool) (hg : g.WF)
    (hw : g.width = 2) (hh : g.height = 2) :
    (Cell.new g x y).neighbors p
      = 2 * (p (g.get (x + 1) y)).toNat + 2 * (p (g.get x (y + 1))).toNat
          + 4 * (p (g.get (x + 1) (y + 1))).toNat := by
  have e : ∀ (i j i2 j2 : Int), (x + i) % 2 = (x + i2) % 2 → (y + j) % 2 = (y + j2) % 2 →
      g.get (x + i) (y + j) = g.get (x + i2) (y + j2) := by
    intro i j i2 j2 h1 h2
    apply get_congr_mod g _ _ _ _ hg
    · rw [hw]; exact h1
    · rw [hh]; exact h2
  rw [neighbors_sum]
  simp only [Cell.new]
  rw [e (-1) (-1) 1 1 (by omega) (by omega), e (-1) 0 1 0 (by omega) (by omega),
    e (-1) 1 1 1 (by omega) (by omega), e 0 (-1) 0 1 (by omega) (by omega),
    e 1 (-1) 1 1 (by omega) (by omega)]
  simp only [Int.add_zero]
  omega

theorem inx_ne_two_by_two (g : Grid) (x y : Int) (hg : g.WF)
    (hw : g.width = 2) (hh : g.height = 2) :
    ∀ d ∈ Cell.neighborsEvaluated,
      g._ensure_inx (x + d.1) (y + d.2) ≠ g._ensure_inx x y := by
  intro d hd heq
  rw [ensure_inx_eq g _ _ hg.1 hg.2.1, ensure_inx_eq g x y hg.1 hg.2.1] at heq
  have hidx : g.cellIndex (x + d.1) (y + d.2) = g.cellIndex x y := by omega
  have hm := cellIndex_inj g _ _ _ _ hg.1 hg.2.1 hidx
  rw [hw, hh] at hm
  rw [evaluated_offsets] at hd
  simp only [List.mem_cons, List.mem_singleton, List.mem_nil_iff, or_false] at hd
  have h1 := hm.1
  have h2 := hm.2
  rcases hd with e | e | e | e | e | e | e | e <;> subst e <;> simp only at h1 h2 <;> omega

theorem inx_eq_one_by_one (g : Grid) (x y : Int) (hg : g.WF)
    (hw : g.width = 1) (hh : g.height = 1) :
    ∀ d ∈ Cell.neighborsEvaluated,
      g._ensure_inx (x + d.1) (y + d.2) = g._ensure_inx x y := by
  intro d _
  rw [ensure_inx_eq g _ _ hg.1 hg.2.1, ensure_inx_eq g x y hg.1 hg.2.1]
  unfold Grid.cellIndex
  rw [hw, hh]
  have a1 : (x + d.1) % ((1 : Nat) : Int) = 0 := by omega
  have a2 : (y + d.2) % ((1 : Nat) : Int) = 0 := by omega
  have a3 : x % ((1 : Nat) : Int) = 0 := by omega
  have a4 : y % ((1 : Nat) : Int) = 0 := by omega
  rw [a1, a2, a3, a4]

end Cellular

namespace Cellular

/-! ## Rounded additions and the limit of the allocation -/

theorem excessBits_small (fuel m : Nat) (h : m < 2 ^ 53) : excessBits fuel m = 0 := by
  cases fuel with
  | zero => rfl
  | succ f => unfold excessBits; rw [if_pos h]

theorem roundToDouble_small (n : Int) (h : n.natAbs < 2 ^ 53) : roundToDouble n = n := by
  unfold roundToDouble
  simp only [excessBits_small _ _ h, Nat.pow_zero, Nat.div_one, Nat.mod_one, Nat.mul_zero,
    Nat.mul_one]
  have hup : (decide (1 < 0) || (decide (0 = 1) && decide (n.natAbs % 2 = 1))) = false := by
    simp
  rw [hup]
  exact Int.sign_mul_natAbs n

/-- Adding an offset of `neighbors` to a safe integer is exact. -/
theorem jsAdd_safe (x i : Int) (hx : isSafeInteger x) (hi : -1 ≤ i ∧ i ≤ 1) :
    jsAdd x i = x + i := by
  unfold isSafeInteger MAX_SAFE_INTEGER at hx
  unfold jsAdd
  by_cases h : (x + i).natAbs < 2 ^ 53
  · exact roundToDouble_small _ h
  · have hcase : x + i = 9007199254740992 ∨ x + i = -9007199254740992 := by omega
    rcases hcase with e | e <;> rw [e] <;> decide

theorem neighborsDouble_sum (cell : Cell) (p : Color → Bool) :
    cell.neighborsDouble p =
      (p (cell.grid.get (jsAdd cell.x (-1)) (jsAdd cell.y (-1)))).toNat
      + (p (cell.grid.get (jsAdd cell.x (-1)) (jsAdd cell.y 0))).toNat
      + (p (cell.grid.get (jsAdd cell.x (-1)) (jsAdd cell.y 1))).toNat
      + (p (cell.grid.get (jsAdd cell.x 0) (jsAdd cell.y (-1)))).toNat
      + (p (cell.grid.get (jsAdd cell.x 0) (jsAdd cell.y 1))).toNat
      + (p (cell.grid.get (jsAdd cell.x 1) (jsAdd cell.y (-1)))).toNat
      + (p (cell.grid.get (jsAdd cell.x 1) (jsAdd cell.y 0))).toNat
      + (p (cell.grid.get (jsAdd cell.x 1) (jsAdd cell.y 1))).toNat := by
  have key : ∀ (b : Bool) (n : Nat), (if b = true then n + 1 else n) = n + b.toNat := by
    intro b n; cases b <;> simp
  simp only [Cell.neighborsDouble, List.foldl_cons, List.foldl_nil, key]
  simp

/-- At a safe position the rounded additions of `neighbors` are the exact
ones. -/
theorem neighborsDouble_eq (g : Grid) (x y : Int) (p : Color → Bool)
    (hx : isSafeInteger x) (hy : isSafeInteger y) :
    (Cell.new g x y).neighborsDouble p = (Cell.new g x y).neighbors p := by
  rw [neighborsDouble_sum, neighbors_sum]
  simp only [Cell.new]
  rw [jsAdd_safe x (-1) hx (by decide), jsAdd_safe x 0 hx (by decide),
    jsAdd_safe x 1 hx (by decide), jsAdd_safe y (-1) hy (by decide),
    jsAdd_safe y 0 hy (by decide), jsAdd_safe y 1 hy (by decide)]

theorem newWithin_of_le (limit : Nat) (w h : Int)
    (hfit : w * h * 4 ≤ limit) : Grid.newWithin limit w h = Grid.new w h := by
  unfold Grid.newWithin Grid.new Uint8ClampedArray.allocWithin Color.SIZE
  have h1 : ¬ ((limit : Int) < w * h * ((4 : Nat) : Int)) := by
    have : w * h * ((4 : Nat) : Int) = w * h * 4 := rfl
    omega
  rw [if_neg h1]

theorem newWithin_of_gt (limit : Nat) (w h : Int)
    (hbig : (limit : Int) < w * h * 4) : Grid.newWithin limit w h = .error .RangeError := by
  unfold Grid.newWithin Uint8ClampedArray.allocWithin Color.SIZE
  have h1 : (limit : Int) < w * h * ((4 : Nat) : Int) := hbig
  rw [if_pos h1]
  rfl

end Cellular

namespace Cellular

/-! ## Claims about the grid and the neighbor count -/

/-- C1: generation atomicity of `shade_cell`. On a well-formed grid the call
returns a grid of the same dimensions in which every in-range position
`(x, y)` holds `f` applied to the cell built from the grid before the call;
that cell carries the old grid and a copy of its old color, so every lookup
that `f` makes through it reads the old state. -/
theorem shade_cell_generation_atomic (g : Grid) (f : Cell → Color) (hg : g.WF) :
    ∃ g' : Grid, g.shade_cell f = .ok g' ∧ g'.width = g.width ∧ g'.height = g.height
      ∧ ∀ x y : Int, 0 ≤ x → x < g.width → 0 ≤ y → y < g.height →
          g'.get x y = f (Cell.new g x y)
            ∧ (Cell.new g x y).grid = g
            ∧ (Cell.new g x y).color = g.get x y := by
  obtain ⟨g', hrun, _, hw, hh, hget⟩ := shade_cell_get g f hg
  refine ⟨g', hrun, hw, hh, ?_⟩
  intro x y hx0 hx1 hy0 hy1
  refine ⟨?_, rfl, cell_color g x y⟩
  rw [hget x y, Int.emod_eq_of_lt hx0 hx1, Int.emod_eq_of_lt hy0 hy1]

/-- Witness of C1 on the example grid with the Life rule as callback. -/
theorem shade_cell_generation_atomic_witness :
    ∃ g' : Grid, exampleGrid.shade_cell lifeRule = .ok g'
      ∧ g'.width = exampleGrid.width ∧ g'.height = exampleGrid.height
      ∧ ∀ x y : Int, 0 ≤ x → x < exampleGrid.width → 0 ≤ y → y < exampleGrid.height →
          g'.get x y = lifeRule (Cell.new exampleGrid x y)
            ∧ (Cell.new exampleGrid x y).grid = exampleGrid
            ∧ (Cell.new exampleGrid x y).color = exampleGrid.get x y :=
  shade_cell_generation_atomic exampleGrid lifeRule (by decide)

/-- C2: wraparound of `get`. On a well-formed grid, for all integers `x` and
`y`, `get(x, y)` equals `get` at the floored remainders of `x` by the width and
`y` by the height; these lie in `[0, width)` and `[0, height)`; and the
expression `((n % m) + m) % m` of `_fix_x` and `_fix_y`, over the truncating
remainder, is that floored remainder. -/
theorem get_wraparound (g : Grid) (x y : Int) (hg : g.WF) :
    g.get x y = g.get (Int.fmod x g.width) (Int.fmod y g.height)
      ∧ (0 ≤ Int.fmod x g.width ∧ Int.fmod x g.width < g.width)
      ∧ (0 ≤ Int.fmod y g.height ∧ Int.fmod y g.height < g.height)
      ∧ g._fix_x x = Int.fmod x g.width
      ∧ g._fix_y y = Int.fmod y g.height := by
  rw [Int.fmod_eq_emod x (Int.ofNat_nonneg g.width),
    Int.fmod_eq_emod y (Int.ofNat_nonneg g.height)]
  exact ⟨get_wrap g x y hg, emod_bounds x g.width hg.1, emod_bounds y g.height hg.2.1,
    js_floored_mod x g.width hg.1, js_floored_mod y g.height hg.2.1⟩

/-- Witness of C2 on the example grid at a position left of and below the
grid. -/
theorem get_wraparound_witness :
    exampleGrid.get (-5) 7
        = exampleGrid.get (Int.fmod (-5) exampleGrid.width) (Int.fmod 7 exampleGrid.height)
      ∧ (0 ≤ Int.fmod (-5) exampleGrid.width
          ∧ Int.fmod (-5) exampleGrid.width < exampleGrid.width)
      ∧ (0 ≤ Int.fmod 7 exampleGrid.height
          ∧ Int.fmod 7 exampleGrid.height < exampleGrid.height)
      ∧ exampleGrid._fix_x (-5) = Int.fmod (-5) exampleGrid.width
      ∧ exampleGrid._fix_y 7 = Int.fmod 7 exampleGrid.height :=
  get_wraparound exampleGrid (-5) 7 (by decide)

/-- C3: coordinate access never goes out of bounds. On a well-formed grid, for
all integers `x` and `y`, the wrapped coordinates lie in `[0, width)` and
`[0, height)`, the byte offset is `(y' * width + x') * 4`, it is not negative
and leaves room for four bytes in the buffer of `width * height * 4` bytes, so
the slice read by `get` has exactly four bytes and `set` succeeds and keeps
the length of the buffer. -/
theorem access_in_bounds (g : Grid) (x y : Int) (c : Color) (hg : g.WF) :
    (0 ≤ g._ensure_x x ∧ g._ensure_x x < g.width)
      ∧ (0 ≤ g._ensure_y y ∧ g._ensure_y y < g.height)
      ∧ g._ensure_inx x y = (g._ensure_y y * g.width + g._ensure_x x) * 4
      ∧ 0 ≤ g._ensure_inx x y
      ∧ g._ensure_inx x y + 4 ≤ (g.width : Int) * g.height * 4
      ∧ g._ensure_inx x y + 4 ≤ g.data.length
      ∧ (typedSlice g.data (g._ensure_inx x y)
            (g._ensure_inx x y + (Color.SIZE : Nat))).length = 4
      ∧ ∃ g' : Grid, g.set x y c = .ok g' ∧ g'.data.length = g.data.length := by
  have hw := hg.1
  have hh := hg.2.1
  have hl := hg.2.2
  have hlt := cellIndex_lt g x y hw hh
  have hb : g.cellIndex x y * 4 + 4 ≤ g.data.length := by
    rw [hl, Color.SIZE]; omega
  have hlen : (g.data.length : Int) = (g.width : Int) * g.height * 4 := by
    rw [hl, Color.SIZE]; push_cast; ring
  refine ⟨?_, ?_, ?_, ?_, ?_, ?_, ?_, ?_⟩
  · rw [ensure_x_eq g x hw]; exact emod_bounds x g.width hw
  · rw [ensure_y_eq g y hh]; exact emod_bounds y g.height hh
  · unfold Grid._ensure_inx Grid._inx Color.SIZE
    push_cast; ring
  · rw [ensure_inx_eq g x y hw hh]; omega
  · rw [ensure_inx_eq g x y hw hh, ← hlen]; omega
  · rw [ensure_inx_eq g x y hw hh]; omega
  · rw [ensure_inx_eq g x y hw hh, typedSlice_cell g.data _ hb, List.length_take,
      List.length_drop]
    omega
  · exact ⟨_, set_cell g x y c hg, length_writeCell g.data _ c hb⟩

/-- Witness of C3 on the example grid at an out-of-range position. -/
theorem access_in_bounds_witness :
    (0 ≤ exampleGrid._ensure_x (-5) ∧ exampleGrid._ensure_x (-5) < exampleGrid.width)
      ∧ (0 ≤ exampleGrid._ensure_y 7 ∧ exampleGrid._ensure_y 7 < exampleGrid.height)
      ∧ exampleGrid._ensure_inx (-5) 7
          = (exampleGrid._ensure_y 7 * exampleGrid.width + exampleGrid._ensure_x (-5)) * 4
      ∧ 0 ≤ exampleGrid._ensure_inx (-5) 7
      ∧ exampleGrid._ensure_inx (-5) 7 + 4
          ≤ (exampleGrid.width : Int) * exampleGrid.height * 4
      ∧ exampleGrid._ensure_inx (-5) 7 + 4 ≤ exampleGrid.data.length
      ∧ (typedSlice exampleGrid.data (exampleGrid._ensure_inx (-5) 7)
            (exampleGrid._ensure_inx (-5) 7 + (Color.SIZE : Nat))).length = 4
      ∧ ∃ g' : Grid, exampleGrid.set (-5) 7 WHITE = .ok g'
          ∧ g'.data.length = exampleGrid.data.length :=
  access_in_bounds exampleGrid (-5) 7 WHITE (by decide)

/-- C4: round trip of `set` and `get`. On a well-formed grid, for every color
`c` and all integers `x` and `y`, in range or not, `set(x, y, c)` succeeds and
`get(x, y)` on the result is `c`, which `equals` confirms channel by
channel. -/
theorem set_get_round_trip (g : Grid) (x y : Int) (c : Color) (hg : g.WF) :
    ∃ g' : Grid, g.set x y c = .ok g' ∧ g'.get x y = c
      ∧ (g'.get x y).equals c = true := by
  have hlt := cellIndex_lt g x y hg.1 hg.2.1
  have hb : g.cellIndex x y * 4 + 4 ≤ g.data.length := by
    rw [hg.2.2, Color.SIZE]; omega
  have hg' : ({ g with data := writeCell g.data (g.cellIndex x y) c } : Grid).WF :=
    ⟨hg.1, hg.2.1, (length_writeCell g.data _ c hb).trans hg.2.2⟩
  have hget : ({ g with data := writeCell g.data (g.cellIndex x y) c } : Grid).get x y = c := by
    rw [get_eq_cellAt _ x y hg']
    exact cellAt_writeCell_same g.data (g.cellIndex x y) c hb
  exact ⟨_, set_cell g x y c hg, hget, (equals_iff _ _).2 hget⟩

/-- Witness of C4 on the example grid at an out-of-range position. -/
theorem set_get_round_trip_witness :
    ∃ g' : Grid, exampleGrid.set (-5) 7 (Color.new 1 2 3 4) = .ok g'
      ∧ g'.get (-5) 7 = Color.new 1 2 3 4
      ∧ (g'.get (-5) 7).equals (Color.new 1 2 3 4) = true :=
  set_get_round_trip exampleGrid (-5) 7 (Color.new 1 2 3 4) (by decide)

/-- C5 as stated fails beyond the safe integers. On the grid of width 3 and
height 2 with its white cell at `(0, 0)`, the position `(2^53, 0)` has the
white cell at offset `(1, 0)`, so the reference count is 1; but the sum
`this.x + 1` rounds back to `2^53`, the loop looks up the column of the cell
itself, and the count it returns is 0. -/
theorem neighbors_rounds_large_position :
    (shiftedGrid.WF
        ∧ jsAdd 9007199254740992 1 = 9007199254740992
        ∧ (Cell.new shiftedGrid 9007199254740992 0).neighborsDouble
            (fun c => c.equals WHITE) = 0
        ∧ neighborsSpec shiftedGrid 9007199254740992 0 (fun c => c.equals WHITE) = 1)
      ∧ ¬ (∀ (g : Grid) (x y : Int) (p : Color → Bool), g.WF →
          (Cell.new g x y).neighborsDouble p = neighborsSpec g x y p) := by
  have h0 : (Cell.new shiftedGrid 9007199254740992 0).neighborsDouble
      (fun c => c.equals WHITE) = 0 := by decide
  have h1 : neighborsSpec shiftedGrid 9007199254740992 0 (fun c => c.equals WHITE) = 1 := by
    rw [← neighbors_eq_spec]
    decide
  refine ⟨⟨by decide, by decide, h0, h1⟩, ?_⟩
  intro hall
  have h := hall shiftedGrid 9007199254740992 0 (fun c => c.equals WHITE) (by decide)
  rw [h0, h1] at h
  exact absurd h (by decide)

/-- C5, amended: `neighbors` equals its reference definition at safe
positions. On a well-formed grid, for all safe integers `x` and `y`
(`|x|, |y| <= 2^53 - 1`) and every predicate `p`, the count returned for the
cell at `(x, y)`, with the additions rounded as JavaScript rounds them, is the
number of offsets in `{-1, 0, 1} x {-1, 0, 1}` other than `(0, 0)` at which
`p` holds of the wrapped lookup; the additions are exact there; the loop
calls `p` at eight offsets, none of them `(0, 0)`, and counts the calls that
pass. -/
theorem neighbors_refines_spec (g : Grid) (x y : Int) (p : Color → Bool) (_hg : g.WF)
    (hx : isSafeInteger x) (hy : isSafeInteger y) :
    (Cell.new g x y).neighborsDouble p = neighborsSpec g x y p
      ∧ (Cell.new g x y).neighborsDouble p = (Cell.new g x y).neighbors p
      ∧ (Cell.new g x y).neighborsDouble p
          = (Cell.neighborsEvaluated.filter
              fun d => p (g.get (x + d.1) (y + d.2))).length
      ∧ (0, 0) ∉ Cell.neighborsEvaluated
      ∧ Cell.neighborsEvaluated.length = 8 := by
  have hd := neighborsDouble_eq g x y p hx hy
  refine ⟨hd.trans (neighbors_eq_spec g x y p), hd, ?_, by decide, rfl⟩
  have key : ∀ b : Bool, (if b = true then 1 else 0) = b.toNat := by
    intro b; cases b <;> rfl
  have he : Cell.neighborsEvaluated
      = [(-1, -1), (-1, 0), (-1, 1), (0, -1), (0, 1), (1, -1), (1, 0), (1, 1)] := rfl
  rw [hd, neighbors_sum, he, ← List.countP_eq_length_filter]
  simp only [Cell.new, List.countP_cons, List.countP_nil, key]
  omega

/-- Witness of C5 as amended: the example grid, counting white neighbors of
the cell at `(0, 0)`. -/
theorem neighbors_refines_spec_witness :
    (Cell.new exampleGrid 0 0).neighborsDouble (fun c => c.equals WHITE)
        = neighborsSpec exampleGrid 0 0 (fun c => c.equals WHITE)
      ∧ (Cell.new exampleGrid 0 0).neighborsDouble (fun c => c.equals WHITE)
          = (Cell.new exampleGrid 0 0).neighbors (fun c => c.equals WHITE)
      ∧ (Cell.new exampleGrid 0 0).neighborsDouble (fun c => c.equals WHITE)
          = (Cell.neighborsEvaluated.filter
              fun d => (exampleGrid.get (0 + d.1) (0 + d.2)).equals WHITE).length
      ∧ (0, 0) ∉ Cell.neighborsEvaluated
      ∧ Cell.neighborsEvaluated.length = 8 :=
  neighbors_refines_spec exampleGrid 0 0 (fun c => c.equals WHITE) (by decide)
    (by decide) (by decide)

/-- C6: bounds of the neighbor count. On a well-formed grid, for every cell
position and every predicate `p`, the count lies between 0 and 8, and it is 8
for the predicate that is true of every color. -/
theorem neighbors_bounds (g : Grid) (x y : Int) (p : Color → Bool) (_hg : g.WF) :
    0 ≤ (Cell.new g x y).neighbors p ∧ (Cell.new g x y).neighbors p ≤ 8
      ∧ (Cell.new g x y).neighbors (fun _ => true) = 8 := by
  refine ⟨Nat.zero_le _, ?_, ?_⟩
  · rw [neighbors_sum]
    have hb : ∀ b : Bool, b.toNat ≤ 1 := fun b => by cases b <;> decide
    have h1 := hb (p ((Cell.new g x y).grid.get ((Cell.new g x y).x + -1) ((Cell.new g x y).y + -1)))
    have h2 := hb (p ((Cell.new g x y).grid.get ((Cell.new g x y).x + -1) ((Cell.new g x y).y + 0)))
    have h3 := hb (p ((Cell.new g x y).grid.get ((Cell.new g x y).x + -1) ((Cell.new g x y).y + 1)))
    have h4 := hb (p ((Cell.new g x y).grid.get ((Cell.new g x y).x + 0) ((Cell.new g x y).y + -1)))
    have h5 := hb (p ((Cell.new g x y).grid.get ((Cell.new g x y).x + 0) ((Cell.new g x y).y + 1)))
    have h6 := hb (p ((Cell.new g x y).grid.get ((Cell.new g x y).x + 1) ((Cell.new g x y).y + -1)))
    have h7 := hb (p ((Cell.new g x y).grid.get ((Cell.new g x y).x + 1) ((Cell.new g x y).y + 0)))
    have h8 := hb (p ((Cell.new g x y).grid.get ((Cell.new g x y).x + 1) ((Cell.new g x y).y + 1)))
    omega
  · rw [neighbors_sum]
    rfl

/-- Witness of C6 on the example grid. -/
theorem neighbors_bounds_witness :
    0 ≤ (Cell.new exampleGrid 2 1).neighbors (fun c => c.equals WHITE)
      ∧ (Cell.new exampleGrid 2 1).neighbors (fun c => c.equals WHITE) ≤ 8
      ∧ (Cell.new exampleGrid 2 1).neighbors (fun _ => true) = 8 :=
  neighbors_bounds exampleGrid 2 1 (fun c => c.equals WHITE) (by decide)

end Cellular

namespace Cellular

/-! ## Claims about the Life rule -/

/-- C7: the Game of Life transition on binary cells. For every cell whose
color is exactly white (alive) or exactly black (dead), with `n` its number of
white neighbors, the rule callback of `frame` returns white exactly when the
cell is white and `n` is 2 or 3, or the cell is black and `n` is 3, and it
returns black exactly in every other case. -/
theorem life_rule_on_binary_cells (cell : Cell)
    (hbin : cell.color = WHITE ∨ cell.color = BLACK) :
    (lifeRule cell = WHITE ↔
        (cell.color = WHITE ∧ (cell.neighbors (fun c => c.equals WHITE) = 2
            ∨ cell.neighbors (fun c => c.equals WHITE) = 3))
          ∨ (cell.color = BLACK ∧ cell.neighbors (fun c => c.equals WHITE) = 3))
      ∧ (lifeRule cell = BLACK ↔
        ¬ ((cell.color = WHITE ∧ (cell.neighbors (fun c => c.equals WHITE) = 2
            ∨ cell.neighbors (fun c => c.equals WHITE) = 3))
          ∨ (cell.color = BLACK ∧ cell.neighbors (fun c => c.equals WHITE) = 3))) := by
  have hwb := white_ne_black
  rw [lifeRule_eq]
  unfold lifeBool Cell.equals
  generalize cell.neighbors (fun c => c.equals WHITE) = n
  rcases hbin with h | h
  · have he : cell.color.equals WHITE = true := (equals_iff _ _).2 h
    rw [he, h]
    by_cases h2 : n = 2
    · subst h2; simp [hwb]
    · by_cases h3 : n = 3
      · subst h3; simp [hwb]
      · simp [h2, h3, hwb, hwb.symm]
  · have he : cell.color.equals WHITE = false := by
      rw [Bool.eq_false_iff]; intro hc
      exact hwb (((equals_iff _ _).1 hc).symm.trans h)
    rw [he, h]
    by_cases h3 : n = 3
    · subst h3; simp [hwb, hwb.symm]
    · simp [h3, hwb, hwb.symm]

/-- Witness of C7: the white cell of the example grid. -/
theorem life_rule_on_binary_cells_witness :
    (lifeRule (Cell.new exampleGrid 1 0) = WHITE ↔
        ((Cell.new exampleGrid 1 0).color = WHITE
            ∧ ((Cell.new exampleGrid 1 0).neighbors (fun c => c.equals WHITE) = 2
              ∨ (Cell.new exampleGrid 1 0).neighbors (fun c => c.equals WHITE) = 3))
          ∨ ((Cell.new exampleGrid 1 0).color = BLACK
            ∧ (Cell.new exampleGrid 1 0).neighbors (fun c => c.equals WHITE) = 3))
      ∧ (lifeRule (Cell.new exampleGrid 1 0) = BLACK ↔
        ¬ (((Cell.new exampleGrid 1 0).color = WHITE
            ∧ ((Cell.new exampleGrid 1 0).neighbors (fun c => c.equals WHITE) = 2
              ∨ (Cell.new exampleGrid 1 0).neighbors (fun c => c.equals WHITE) = 3))
          ∨ ((Cell.new exampleGrid 1 0).color = BLACK
            ∧ (Cell.new exampleGrid 1 0).neighbors (fun c => c.equals WHITE) = 3))) :=
  life_rule_on_binary_cells (Cell.new exampleGrid 1 0) (Or.inl (by decide))

/-- C8, evaluated on the code: the middle cell of `freshCellGrid` is neither
white nor black and has exactly three white neighbors, and the rule callback
of `frame` returns white for it, not black. -/
theorem life_rule_births_nonbinary_cell :
    (Cell.new freshCellGrid 1 1).color ≠ WHITE
      ∧ (Cell.new freshCellGrid 1 1).color ≠ BLACK
      ∧ (Cell.new freshCellGrid 1 1).neighbors (fun c => c.equals WHITE) = 3
      ∧ lifeRule (Cell.new freshCellGrid 1 1) = WHITE
      ∧ lifeRule (Cell.new freshCellGrid 1 1) ≠ BLACK := by
  decide

end Cellular

namespace Cellular

/-! ## Claims about known patterns -/

/-- C9 as stated fails on a grid of width 1: in `thinGrid` the only white cell
is `(0, 0)` and the other cell is black, yet the white cell counts itself
twice through the wrapped columns, has 2 white neighbors, and is still white
after one generation, which leaves the grid as it was. So the statement for
every width and height from 1 on is false. -/
theorem isolated_cell_survives_on_thin_grid :
    (thinGrid.WF ∧ thinGrid.get 0 0 = WHITE ∧ thinGrid.get 0 1 = BLACK
        ∧ (Cell.new thinGrid 0 0).neighbors (fun c => c.equals WHITE) = 2
        ∧ step thinGrid = .ok thinGrid)
      ∧ ¬ (∀ (g : Grid) (x0 y0 : Int), g.WF → 1 ≤ g.width → 1 ≤ g.height →
          (0 ≤ x0 ∧ x0 < g.width) → (0 ≤ y0 ∧ y0 < g.height) →
          (∀ x y : Int, 0 ≤ x → x < g.width → 0 ≤ y → y < g.height →
            g.get x y = if x = x0 ∧ y = y0 then WHITE else BLACK) →
          (Cell.new g x0 y0).neighbors (fun c => c.equals WHITE) = 0
            ∧ ∃ g' : Grid, step g = .ok g' ∧ g'.width = g.width ∧ g'.height = g.height
                ∧ ∀ x y : Int, g'.get x y = BLACK) := by
  refine ⟨⟨by decide, by decide, by decide, by decide, rfl⟩, ?_⟩
  intro hall
  have hpat : ∀ x y : Int, 0 ≤ x → x < thinGrid.width → 0 ≤ y → y < thinGrid.height →
      thinGrid.get x y = if x = 0 ∧ y = 0 then WHITE else BLACK := by
    intro x y h1 h2 h3 h4
    have hx : x < 1 := h2
    have hy : y < 2 := h4
    have ex : x = 0 := by omega
    have ey : y = 0 ∨ y = 1 := by omega
    subst ex
    rcases ey with e | e <;> subst e <;> decide
  have h := (hall thinGrid 0 0 (by decide) (by decide) (by decide) (by decide) (by decide)
    hpat).1
  revert h
  decide

/-- C9, amended: on every well-formed grid of width and height at least 2 in
which exactly one cell is white and every other cell is black, the white cell
has 0 white neighbors, and one generation succeeds and leaves every cell
black. -/
theorem isolated_cell_dies (g : Grid) (x0 y0 : Int) (hg : g.WF)
    (hw : 2 ≤ g.width) (hh : 2 ≤ g.height)
    (hx0 : 0 ≤ x0 ∧ x0 < g.width) (hy0 : 0 ≤ y0 ∧ y0 < g.height)
    (hpat : ∀ x y : Int, 0 ≤ x → x < g.width → 0 ≤ y → y < g.height →
      g.get x y = if x = x0 ∧ y = y0 then WHITE else BLACK) :
    (Cell.new g x0 y0).neighbors (fun c => c.equals WHITE) = 0
      ∧ ∃ g' : Grid, step g = .ok g' ∧ g'.width = g.width ∧ g'.height = g.height
          ∧ ∀ x y : Int, g'.get x y = BLACK := by
  have hwpos : 0 < g.width := by omega
  have hhpos : 0 < g.height := by omega
  have H : ∀ x y : Int, g.get x y
      = if ((fun x : Int => decide (x % (g.width : Int) = x0)) x
            && (fun y : Int => decide (y % (g.height : Int) = y0)) y) = true
          then WHITE else BLACK := by
    intro x y
    have hx := emod_bounds x g.width hwpos
    have hy := emod_bounds y g.height hhpos
    rw [get_wrap g x y hg, hpat _ _ hx.1 hx.2 hy.1 hy.2]
    simp only [Bool.and_eq_true, decide_eq_true_eq]
  have hcol : ∀ x : Int, (decide (x % (g.width : Int) = x0) = true →
      decide ((x + -1) % (g.width : Int) = x0) = false
        ∧ decide ((x + 1) % (g.width : Int) = x0) = false) := by
    intro x
    simp only [decide_eq_true_eq, decide_eq_false_iff_not]
    have hb := emod_bounds x g.width hwpos
    have hs := emod_succ_cases x g.width hwpos
    have hp := emod_pred_cases x g.width hwpos
    omega
  have hrow : ∀ y : Int, (decide (y % (g.height : Int) = y0) = true →
      decide ((y + -1) % (g.height : Int) = y0) = false
        ∧ decide ((y + 1) % (g.height : Int) = y0) = false) := by
    intro y
    simp only [decide_eq_true_eq, decide_eq_false_iff_not]
    have hb := emod_bounds y g.height hhpos
    have hs := emod_succ_cases y g.height hhpos
    have hp := emod_pred_cases y g.height hhpos
    omega
  refine ⟨?_, ?_⟩
  · rw [neighbors_separable g _ _ H]
    refine (lifeBool_isolated _ _ _ _ _ _ (hcol x0) (hrow y0)).2 ?_ ?_
    · simp only [decide_eq_true_eq]; exact Int.emod_eq_of_lt hx0.1 hx0.2
    · simp only [decide_eq_true_eq]; exact Int.emod_eq_of_lt hy0.1 hy0.2
  · obtain ⟨g', hrun, _, hw', hh', hget⟩ := step_get g hg
    refine ⟨g', hrun, hw', hh', ?_⟩
    intro x y
    rw [hget x y, lifeRule_separable g _ _ H,
      (lifeBool_isolated _ _ _ _ _ _ (hcol x) (hrow y)).1]
    rfl

/-- Witness of C9 as amended: the example grid, of width 3 and height 2, with
its single white cell at `(1, 0)`. -/
theorem isolated_cell_dies_witness :
    (Cell.new exampleGrid 1 0).neighbors (fun c => c.equals WHITE) = 0
      ∧ ∃ g' : Grid, step exampleGrid = .ok g' ∧ g'.width = exampleGrid.width
          ∧ g'.height = exampleGrid.height ∧ ∀ x y : Int, g'.get x y = BLACK :=
  isolated_cell_dies exampleGrid 1 0 (by decide) (by decide) (by decide) (by decide)
    (by decide)
    (by
      intro x y h1 h2 h3 h4
      have hx : x < 3 := h2
      have hy : y < 2 := h4
      have ex : x = 0 ∨ x = 1 ∨ x = 2 := by omega
      have ey : y = 0 ∨ y = 1 := by omega
      rcases ex with e | e | e <;> subst e <;> rcases ey with e | e <;> subst e <;> decide)

/-- One generation leaves a grid with a 2x2 block unchanged. -/
theorem block_step (g : Grid) (x0 y0 : Int) (hg : g.WF)
    (hw : 4 ≤ g.width) (hh : 4 ≤ g.height)
    (hpat : ∀ x y : Int, 0 ≤ x → x < g.width → 0 ≤ y → y < g.height →
      g.get x y =
        if (x, y) ∈ [(x0 % (g.width : Int), y0 % (g.height : Int)),
            ((x0 + 1) % (g.width : Int), y0 % (g.height : Int)),
            (x0 % (g.width : Int), (y0 + 1) % (g.height : Int)),
            ((x0 + 1) % (g.width : Int), (y0 + 1) % (g.height : Int))]
          then WHITE else BLACK) :
    step g = .ok g := by
  have hwpos : 0 < g.width := by omega
  have hhpos : 0 < g.height := by omega
  have H : ∀ x y : Int, g.get x y
      = if ((fun x : Int => decide (x % (g.width : Int) = x0 % (g.width : Int)
                ∨ x % (g.width : Int) = (x0 + 1) % (g.width : Int))) x
            && (fun y : Int => decide (y % (g.height : Int) = y0 % (g.height : Int)
                ∨ y % (g.height : Int) = (y0 + 1) % (g.height : Int))) y) = true
          then WHITE else BLACK := by
    intro x y
    have hx := emod_bounds x g.width hwpos
    have hy := emod_bounds y g.height hhpos
    rw [get_wrap g x y hg, hpat _ _ hx.1 hx.2 hy.1 hy.2]
    simp only [Bool.and_eq_true, decide_eq_true_eq, List.mem_cons, List.mem_singleton,
      Prod.mk.injEq]
    by_cases hc : (x % (g.width : Int) = x0 % (g.width : Int)
          ∨ x % (g.width : Int) = (x0 + 1) % (g.width : Int))
        ∧ (y % (g.height : Int) = y0 % (g.height : Int)
          ∨ y % (g.height : Int) = (y0 + 1) % (g.height : Int))
    · rw [if_pos hc, if_pos (by tauto)]
    · rw [if_neg hc, if_neg (by tauto)]
  have hcol : ∀ x : Int,
      ¬ (decide ((x + -1) % (g.width : Int) = x0 % (g.width : Int)
            ∨ (x + -1) % (g.width : Int) = (x0 + 1) % (g.width : Int)) = true
          ∧ decide ((x + 1) % (g.width : Int) = x0 % (g.width : Int)
            ∨ (x + 1) % (g.width : Int) = (x0 + 1) % (g.width : Int)) = true)
        ∧ (decide (x % (g.width : Int) = x0 % (g.width : Int)
            ∨ x % (g.width : Int) = (x0 + 1) % (g.width : Int)) = true →
          decide ((x + -1) % (g.width : Int) = x0 % (g.width : Int)
            ∨ (x + -1) % (g.width : Int) = (x0 + 1) % (g.width : Int)) = true
          ∨ decide ((x + 1) % (g.width : Int) = x0 % (g.width : Int)
            ∨ (x + 1) % (g.width : Int) = (x0 + 1) % (g.width : Int)) = true) := by
    intro x
    simp only [decide_eq_true_eq]
    have hb := emod_bounds x g.width hwpos
    have hb0 := emod_bounds x0 g.width hwpos
    have hs := emod_succ_cases x g.width hwpos
    have hp := emod_pred_cases x g.width hwpos
    have hs0 := emod_succ_cases x0 g.width hwpos
    omega
  have hrow : ∀ y : Int,
      ¬ (decide ((y + -1) % (g.height : Int) = y0 % (g.height : Int)
            ∨ (y + -1) % (g.height : Int) = (y0 + 1) % (g.height : Int)) = true
          ∧ decide ((y + 1) % (g.height : Int) = y0 % (g.height : Int)
            ∨ (y + 1) % (g.height : Int) = (y0 + 1) % (g.height : Int)) = true)
        ∧ (decide (y % (g.height : Int) = y0 % (g.height : Int)
            ∨ y % (g.height : Int) = (y0 + 1) % (g.height : Int)) = true →
          decide ((y + -1) % (g.height : Int) = y0 % (g.height : Int)
            ∨ (y + -1) % (g.height : Int) = (y0 + 1) % (g.height : Int)) = true
          ∨ decide ((y + 1) % (g.height : Int) = y0 % (g.height : Int)
            ∨ (y + 1) % (g.height : Int) = (y0 + 1) % (g.height : Int)) = true) := by
    intro y
    simp only [decide_eq_true_eq]
    have hb := emod_bounds y g.height hhpos
    have hb0 := emod_bounds y0 g.height hhpos
    have hs := emod_succ_cases y g.height hhpos
    have hp := emod_pred_cases y g.height hhpos
    have hs0 := emod_succ_cases y0 g.height hhpos
    omega
  obtain ⟨g', hrun, hg', hw', hh', hget⟩ := step_get g hg
  have heq : g' = g := by
    apply grid_ext g g' hg hg' hw' hh'
    intro x y
    rw [hget x y, lifeRule_separable g _ _ H,
      lifeBool_block _ _ _ _ _ _ (hcol x).1 (hcol x).2 (hrow y).1 (hrow y).2]
    exact (H x y).symm
  rw [hrun, heq]

theorem generations_fixed (g : Grid) (h : step g = .ok g) :
    ∀ k : Nat, generations k g = .ok g := by
  intro k
  induction k with
  | zero => rfl
  | succ k ih =>
    unfold generations
    rw [h, ok_bind]
    exact ih

/-- C10: the block is a still life. On every well-formed grid of width and
height at least 4 and for every position `(x0, y0)`, if the white cells are
exactly `(x0, y0)`, `(x0 + 1, y0)`, `(x0, y0 + 1)` and `(x0 + 1, y0 + 1)` with
wrapped coordinates and every other cell is black, then for every number `k`
of generations the run succeeds and the grid after it is the initial grid:
same width, height and bytes. -/
theorem block_still_life (g : Grid) (x0 y0 : Int) (k : Nat) (hg : g.WF)
    (hw : 4 ≤ g.width) (hh : 4 ≤ g.height)
    (hpat : ∀ x y : Int, 0 ≤ x → x < g.width → 0 ≤ y → y < g.height →
      g.get x y =
        if (x, y) ∈ [(x0 % (g.width : Int), y0 % (g.height : Int)),
            ((x0 + 1) % (g.width : Int), y0 % (g.height : Int)),
            (x0 % (g.width : Int), (y0 + 1) % (g.height : Int)),
            ((x0 + 1) % (g.width : Int), (y0 + 1) % (g.height : Int))]
          then WHITE else BLACK) :
    generations k g = .ok g :=
  generations_fixed g (block_step g x0 y0 hg hw hh hpat) k

/-- Witness of C10: five generations of the block that wraps around both
edges of the 4x4 grid. -/
theorem block_still_life_witness : generations 5 blockGrid = .ok blockGrid :=
  block_still_life blockGrid 3 3 5 (by decide) (by decide) (by decide)
    (by
      intro x y h1 h2 h3 h4
      have hx : x < 4 := h2
      have hy : y < 4 := h4
      have ex : x = 0 ∨ x = 1 ∨ x = 2 ∨ x = 3 := by omega
      have ey : y = 0 ∨ y = 1 ∨ y = 2 ∨ y = 3 := by omega
      rcases ex with e | e | e | e <;> subst e <;> rcases ey with e | e | e | e
        <;> subst e <;> decide)

end Cellular

namespace Cellular

/-! ## Claims about the blinker and the smallest tori -/

/-- C11: the blinker oscillates with period 2. On every well-formed grid of
width and height at least 5 and for every center `(cx, cy)`, if the white
cells are exactly `(cx - 1, cy)`, `(cx, cy)` and `(cx + 1, cy)` with wrapped
coordinates and every other cell is black, then one generation succeeds and
gives a grid of the same dimensions whose white cells are exactly
`(cx, cy - 1)`, `(cx, cy)` and `(cx, cy + 1)` with every other cell black, and
a second generation succeeds and gives the initial grid. -/
theorem blinker_period_two (g : Grid) (cx cy : Int) (hg : g.WF)
    (hw : 5 ≤ g.width) (hh : 5 ≤ g.height)
    (hpat : ∀ x y : Int, 0 ≤ x → x < g.width → 0 ≤ y → y < g.height →
      g.get x y =
        if (x, y) ∈ [((cx - 1) % (g.width : Int), cy % (g.height : Int)),
            (cx % (g.width : Int), cy % (g.height : Int)),
            ((cx + 1) % (g.width : Int), cy % (g.height : Int))]
          then WHITE else BLACK) :
    ∃ g1 : Grid, step g = .ok g1 ∧ g1.width = g.width ∧ g1.height = g.height
      ∧ (∀ x y : Int, 0 ≤ x → x < g.width → 0 ≤ y → y < g.height →
          g1.get x y =
            if (x, y) ∈ [(cx % (g.width : Int), (cy - 1) % (g.height : Int)),
                (cx % (g.width : Int), cy % (g.height : Int)),
                (cx % (g.width : Int), (cy + 1) % (g.height : Int))]
              then WHITE else BLACK)
      ∧ step g1 = .ok g := by
  have hwpos : 0 < g.width := by omega
  have hhpos : 0 < g.height := by omega
  have H : ∀ x y : Int, g.get x y
      = if (onTriple g.width cx x && onPoint g.height cy y) = true
          then WHITE else BLACK := by
    intro x y
    have hx := emod_bounds x g.width hwpos
    have hy := emod_bounds y g.height hhpos
    rw [get_wrap g x y hg, hpat _ _ hx.1 hx.2 hy.1 hy.2]
    simp only [onTriple, onPoint, Bool.and_eq_true, decide_eq_true_eq, List.mem_cons,
      List.mem_singleton, Prod.mk.injEq]
    by_cases hc : (x % (g.width : Int) = (cx - 1) % (g.width : Int)
          ∨ x % (g.width : Int) = cx % (g.width : Int)
          ∨ x % (g.width : Int) = (cx + 1) % (g.width : Int))
        ∧ y % (g.height : Int) = cy % (g.height : Int)
    · rw [if_pos hc, if_pos (by tauto)]
    · rw [if_neg hc, if_neg (by tauto)]
  obtain ⟨g1, hrun1, hg1, hw1, hh1, hget1⟩ :=
    step_pattern g (onTriple g.width cx) (onPoint g.height cy)
      (onPoint g.width cx) (onTriple g.height cy) hg H
      (by
        intro x y
        have hu := point_unique g.height cy y (by omega)
        rw [lifeBool_row _ _ _ _ _ _ hu.1 hu.2.1 hu.2.2, triple_and g.width cx x hw,
          point_or g.height cy y (by omega)])
  obtain ⟨g2, hrun2, hg2, hw2, hh2, hget2⟩ :=
    step_pattern g1 (onPoint g.width cx) (onTriple g.height cy)
      (onTriple g.width cx) (onPoint g.height cy) hg1 hget1
      (by
        intro x y
        have hu := point_unique g.width cx x (by omega)
        rw [lifeBool_column _ _ _ _ _ _ hu.1 hu.2.1 hu.2.2, point_or g.width cx x (by omega),
          triple_and g.height cy y hh])
  have heq : g2 = g := by
    apply grid_ext g g2 hg hg2 (hw2.trans hw1) (hh2.trans hh1)
    intro x y
    rw [hget2 x y, H x y]
  refine ⟨g1, hrun1, hw1, hh1, ?_, by rw [hrun2, heq]⟩
  intro x y hx0 hx1 hy0 hy1
  rw [hget1 x y]
  simp only [onTriple, onPoint, Bool.and_eq_true, decide_eq_true_eq, List.mem_cons,
    List.mem_singleton, Prod.mk.injEq, Int.emod_eq_of_lt hx0 hx1, Int.emod_eq_of_lt hy0 hy1]
  by_cases hc : x = cx % (g.width : Int)
      ∧ (y = (cy - 1) % (g.height : Int) ∨ y = cy % (g.height : Int)
        ∨ y = (cy + 1) % (g.height : Int))
  · rw [if_pos hc, if_pos (by tauto)]
  · rw [if_neg hc, if_neg (by tauto)]

/-- Witness of C11: the blinker centered at `(0, 2)` of the 5x5 grid, which
wraps around the left edge. -/
theorem blinker_period_two_witness :
    ∃ g1 : Grid, step blinkerGrid = .ok g1 ∧ g1.width = blinkerGrid.width
      ∧ g1.height = blinkerGrid.height
      ∧ (∀ x y : Int, 0 ≤ x → x < blinkerGrid.width → 0 ≤ y → y < blinkerGrid.height →
          g1.get x y =
            if (x, y) ∈ [((0 : Int) % (blinkerGrid.width : Int),
                  ((2 : Int) - 1) % (blinkerGrid.height : Int)),
                ((0 : Int) % (blinkerGrid.width : Int), (2 : Int) % (blinkerGrid.height : Int)),
                ((0 : Int) % (blinkerGrid.width : Int),
                  ((2 : Int) + 1) % (blinkerGrid.height : Int))]
              then WHITE else BLACK)
      ∧ step g1 = .ok blinkerGrid :=
  blinker_period_two blinkerGrid 0 2 (by decide) (by decide) (by decide)
    (by
      intro x y h1 h2 h3 h4
      have hx : x < 5 := h2
      have hy : y < 5 := h4
      have ex : x = 0 ∨ x = 1 ∨ x = 2 ∨ x = 3 ∨ x = 4 := by omega
      have ey : y = 0 ∨ y = 1 ∨ y = 2 ∨ y = 3 ∨ y = 4 := by omega
      rcases ex with e | e | e | e | e <;> subst e <;> rcases ey with e | e | e | e | e
        <;> subst e <;> decide)

end Cellular

namespace Cellular

/-- C12: the smallest tori count wrapped duplicates with multiplicity and do
not fail. For every cell `(x, y)` of a well-formed grid and every predicate
`p`, the additions of `neighbors` are exact. If the width and the height are 1,
all eight lookups address the cell itself, the count is 8 if `p` holds of the
color of the cell and 0 otherwise, and one generation succeeds and gives the
cell the color that the rule assigns to that count, which is black. If the
width and the height are 2, no lookup addresses the cell itself, the count is
`2 * [p(get(x+1, y))] + 2 * [p(get(x, y+1))] + 4 * [p(get(x+1, y+1))]`, and one
generation succeeds and gives the cell the color that the rule assigns to
that count of white neighbors. -/
theorem degenerate_tori (g : Grid) (x y : Int) (p : Color → Bool) (hg : g.WF)
    (hx : 0 ≤ x ∧ x < g.width) (hy : 0 ≤ y ∧ y < g.height) :
    (g.width = 1 → g.height = 1 →
        (Cell.new g x y).neighborsDouble p = (Cell.new g x y).neighbors p
          ∧ (∀ d ∈ Cell.neighborsEvaluated,
            g._ensure_inx (x + d.1) (y + d.2) = g._ensure_inx x y)
          ∧ (Cell.new g x y).neighbors p = (if p (g.get x y) = true then 8 else 0)
          ∧ ∃ g' : Grid, step g = .ok g' ∧ g'.width = 1 ∧ g'.height = 1
              ∧ g'.get x y
                  = (if lifeBool ((g.get x y).equals WHITE)
                        (if (g.get x y).equals WHITE = true then 8 else 0) = true
                      then WHITE else BLACK)
              ∧ g'.get x y = BLACK)
      ∧ (g.width = 2 → g.height = 2 →
        (Cell.new g x y).neighborsDouble p = (Cell.new g x y).neighbors p
          ∧ (∀ d ∈ Cell.neighborsEvaluated,
            g._ensure_inx (x + d.1) (y + d.2) ≠ g._ensure_inx x y)
          ∧ (Cell.new g x y).neighbors p
              = 2 * (p (g.get (x + 1) y)).toNat + 2 * (p (g.get x (y + 1))).toNat
                  + 4 * (p (g.get (x + 1) (y + 1))).toNat
          ∧ ∃ g' : Grid, step g = .ok g' ∧ g'.width = 2 ∧ g'.height = 2
              ∧ g'.get x y
                  = (if lifeBool ((g.get x y).equals WHITE)
                        (2 * ((g.get (x + 1) y).equals WHITE).toNat
                          + 2 * ((g.get x (y + 1)).equals WHITE).toNat
                          + 4 * ((g.get (x + 1) (y + 1)).equals WHITE).toNat) = true
                      then WHITE else BLACK)) := by
  obtain ⟨g', hrun, _, hw', hh', hget⟩ := step_get g hg
  constructor
  · intro hw hh
    have sx : isSafeInteger x := by
      unfold isSafeInteger MAX_SAFE_INTEGER; rw [hw] at hx; omega
    have sy : isSafeInteger y := by
      unfold isSafeInteger MAX_SAFE_INTEGER; rw [hh] at hy; omega
    refine ⟨neighborsDouble_eq g x y p sx sy, inx_eq_one_by_one g x y hg hw hh,
      neighbors_one_by_one g x y p hg hw hh,
      g', hrun, hw'.trans hw, hh'.trans hh, ?_, ?_⟩
    · rw [hget x y, lifeRule_new, neighbors_one_by_one g x y _ hg hw hh]
    · rw [hget x y, lifeRule_new, neighbors_one_by_one g x y _ hg hw hh]
      cases (g.get x y).equals WHITE <;> rfl
  · intro hw hh
    have sx : isSafeInteger x := by
      unfold isSafeInteger MAX_SAFE_INTEGER; rw [hw] at hx; omega
    have sy : isSafeInteger y := by
      unfold isSafeInteger MAX_SAFE_INTEGER; rw [hh] at hy; omega
    refine ⟨neighborsDouble_eq g x y p sx sy, inx_ne_two_by_two g x y hg hw hh,
      neighbors_two_by_two g x y p hg hw hh,
      g', hrun, hw'.trans hw, hh'.trans hh, ?_⟩
    rw [hget x y, lifeRule_new, neighbors_two_by_two g x y _ hg hw hh]

/-- Witness of C12: the 1x1 grid with a white cell, and the cell `(1, 0)` of
the 2x2 grid whose upper row is white. -/
theorem degenerate_tori_witness :
    ((Cell.new unitGrid 0 0).neighborsDouble (fun c => c.equals WHITE)
          = (Cell.new unitGrid 0 0).neighbors (fun c => c.equals WHITE)
        ∧ (∀ d ∈ Cell.neighborsEvaluated,
          unitGrid._ensure_inx (0 + d.1) (0 + d.2) = unitGrid._ensure_inx 0 0)
        ∧ (Cell.new unitGrid 0 0).neighbors (fun c => c.equals WHITE)
            = (if (unitGrid.get 0 0).equals WHITE = true then 8 else 0)
        ∧ ∃ g' : Grid, step unitGrid = .ok g' ∧ g'.width = 1 ∧ g'.height = 1
            ∧ g'.get 0 0
                = (if lifeBool ((unitGrid.get 0 0).equals WHITE)
                      (if (unitGrid.get 0 0).equals WHITE = true then 8 else 0) = true
                    then WHITE else BLACK)
            ∧ g'.get 0 0 = BLACK)
      ∧ ((Cell.new smallGrid 1 0).neighborsDouble (fun c => c.equals WHITE)
          = (Cell.new smallGrid 1 0).neighbors (fun c => c.equals WHITE)
        ∧ (∀ d ∈ Cell.neighborsEvaluated,
          smallGrid._ensure_inx (1 + d.1) (0 + d.2) ≠ smallGrid._ensure_inx 1 0)
        ∧ (Cell.new smallGrid 1 0).neighbors (fun c => c.equals WHITE)
            = 2 * ((smallGrid.get (1 + 1) 0).equals WHITE).toNat
                + 2 * ((smallGrid.get 1 (0 + 1)).equals WHITE).toNat
                + 4 * ((smallGrid.get (1 + 1) (0 + 1)).equals WHITE).toNat
        ∧ ∃ g' : Grid, step smallGrid = .ok g' ∧ g'.width = 2 ∧ g'.height = 2
            ∧ g'.get 1 0
                = (if lifeBool ((smallGrid.get 1 0).equals WHITE)
                      (2 * ((smallGrid.get (1 + 1) 0).equals WHITE).toNat
                        + 2 * ((smallGrid.get 1 (0 + 1)).equals WHITE).toNat
                        + 4 * ((smallGrid.get (1 + 1) (0 + 1)).equals WHITE).toNat) = true
                    then WHITE else BLACK)) :=
  ⟨(degenerate_tori unitGrid 0 0 (fun c => c.equals WHITE) (by decide) (by decide)
      (by decide)).1 rfl rfl,
    (degenerate_tori smallGrid 1 0 (fun c => c.equals WHITE) (by decide) (by decide)
      (by decide)).2 rfl rfl⟩

end Cellular

namespace Cellular

/-! ## Claims about frames, copies and `shade` -/

/-- C13: `set` changes only the addressed cell. On a well-formed grid, for
every color `c` and all integers `x`, `y`, `x2`, `y2` whose floored
remainders by the width and the height differ as pairs, `set(x, y, c)`
succeeds, `get(x2, y2)` on the result equals `get(x2, y2)` before, the width,
the height and the length of the buffer are unchanged, and the four bytes at
the offsets of the two cells do not overlap. -/
theorem set_changes_only_addressed_cell (g : Grid) (x y x2 y2 : Int) (c : Color)
    (hg : g.WF)
    (hne : (Int.fmod x2 g.width, Int.fmod y2 g.height)
      ≠ (Int.fmod x g.width, Int.fmod y g.height)) :
    ∃ g' : Grid, g.set x y c = .ok g' ∧ g'.get x2 y2 = g.get x2 y2
      ∧ g'.width = g.width ∧ g'.height = g.height
      ∧ g'.data.length = g.data.length
      ∧ (g._ensure_inx x y + 4 ≤ g._ensure_inx x2 y2
          ∨ g._ensure_inx x2 y2 + 4 ≤ g._ensure_inx x y) := by
  rw [Int.fmod_eq_emod x (Int.ofNat_nonneg g.width),
    Int.fmod_eq_emod y (Int.ofNat_nonneg g.height),
    Int.fmod_eq_emod x2 (Int.ofNat_nonneg g.width),
    Int.fmod_eq_emod y2 (Int.ofNat_nonneg g.height)] at hne
  have hidx : g.cellIndex x2 y2 ≠ g.cellIndex x y := by
    intro h
    have := cellIndex_inj g x2 y2 x y hg.1 hg.2.1 h
    exact hne (by rw [this.1, this.2])
  have hlt := cellIndex_lt g x y hg.1 hg.2.1
  have hb : g.cellIndex x y * 4 + 4 ≤ g.data.length := by
    rw [hg.2.2, Color.SIZE]; omega
  refine ⟨_, set_cell g x y c hg, set_frame g x y x2 y2 c hg hidx, rfl, rfl,
    length_writeCell g.data _ c hb, ?_⟩
  rw [ensure_inx_eq g x y hg.1 hg.2.1, ensure_inx_eq g x2 y2 hg.1 hg.2.1]
  omega

/-- Witness of C13 on the example grid: writing at `(-5, 7)`, which wraps to
`(1, 1)`, and reading at `(4, 0)`, which wraps to `(1, 0)`. -/
theorem set_changes_only_addressed_cell_witness :
    ∃ g' : Grid, exampleGrid.set (-5) 7 (Color.new 1 2 3 4) = .ok g'
      ∧ g'.get 4 0 = exampleGrid.get 4 0
      ∧ g'.width = exampleGrid.width ∧ g'.height = exampleGrid.height
      ∧ g'.data.length = exampleGrid.data.length
      ∧ (exampleGrid._ensure_inx (-5) 7 + 4 ≤ exampleGrid._ensure_inx 4 0
          ∨ exampleGrid._ensure_inx 4 0 + 4 ≤ exampleGrid._ensure_inx (-5) 7) :=
  set_changes_only_addressed_cell exampleGrid (-5) 7 4 0 (Color.new 1 2 3 4)
    (by decide) (by decide)

end Cellular

namespace Cellular

/-- C14: `copy` gives an equal and independent grid. For every `Grid` object
`g` that holds a well-formed grid in a store, `g.copy()` succeeds and returns
an object `g2` on another buffer with the width and height of `g`; it holds
the grid that `copy` returns on the grid value, so `g2.get(x, y) = g.get(x, y)`
for all integers, and `g` reads as before. For every color `X` and all
integers `x`, `y`, a following `g2.set(x, y, X)` succeeds, leaves
`g.get(x2, y2)` unchanged for all integers `x2`, `y2`, and `g2` then reads `X`
at `(x, y)`. -/
theorem copy_equal_and_independent (s : Store) (g : GridObj) (X : Color) (x y : Int)
    (hbuf : g.data < s.length) (hg : (g.read s).WF) :
    ∃ (s1 : Store) (g2 : GridObj), GridObj.copy s g = .ok (s1, g2)
      ∧ g2.width = g.width ∧ g2.height = g.height
      ∧ g2.data ≠ g.data
      ∧ (g.read s).copy = .ok (g2.read s1)
      ∧ (∀ x2 y2 : Int, GridObj.get s1 g2 x2 y2 = GridObj.get s g x2 y2)
      ∧ (∀ x2 y2 : Int, GridObj.get s1 g x2 y2 = GridObj.get s g x2 y2)
      ∧ ∃ s2 : Store, GridObj.set s1 g2 x y X = .ok s2
          ∧ (∀ x2 y2 : Int, GridObj.get s2 g x2 y2 = GridObj.get s g x2 y2)
          ∧ GridObj.get s2 g2 x y = X := by
  have hread : (⟨g.width, g.height, s.length⟩ : GridObj).read (s ++ [(g.read s).data])
      = g.read s := read_last s g.width g.height _
  have hlt := cellIndex_lt (g.read s) x y hg.1 hg.2.1
  have hb : (g.read s).cellIndex x y * 4 + 4 ≤ (g.read s).data.length := by
    rw [hg.2.2, Color.SIZE]; omega
  refine ⟨s ++ [(g.read s).data], ⟨g.width, g.height, s.length⟩, copy_store s g hbuf hg,
    rfl, rfl, ?_, ?_, ?_, ?_, ?_⟩
  · exact fun h => absurd hbuf (by rw [← h]; exact Nat.lt_irrefl _)
  · rw [hread]; exact copy_eq _ hg
  · intro x2 y2
    unfold GridObj.get
    rw [hread]
  · intro x2 y2
    unfold GridObj.get
    rw [read_append s g _ hbuf]
  · refine ⟨s ++ [writeCell (g.read s).data ((g.read s).cellIndex x y) X], ?_, ?_, ?_⟩
    · unfold GridObj.set
      rw [hread, set_cell _ x y X hg]
      simp only [ok_bind, pure, Except.pure]
      rw [set_last]
    · intro x2 y2
      unfold GridObj.get
      rw [read_append s g _ hbuf]
    · unfold GridObj.get
      rw [read_last]
      have hg' : (⟨g.width, g.height,
          writeCell (g.read s).data ((g.read s).cellIndex x y) X⟩ : Grid).WF :=
        ⟨hg.1, hg.2.1, (length_writeCell _ _ X hb).trans hg.2.2⟩
      rw [get_eq_cellAt _ x y hg']
      exact cellAt_writeCell_same _ _ X hb

/-- Witness of C14: copying the example object and writing into the copy at
`(0, 0)`. -/
theorem copy_equal_and_independent_witness :
    ∃ (s1 : Store) (g2 : GridObj), GridObj.copy exampleStore exampleObj = .ok (s1, g2)
      ∧ g2.width = exampleObj.width ∧ g2.height = exampleObj.height
      ∧ g2.data ≠ exampleObj.data
      ∧ (exampleObj.read exampleStore).copy = .ok (g2.read s1)
      ∧ (∀ x2 y2 : Int,
          GridObj.get s1 g2 x2 y2 = GridObj.get exampleStore exampleObj x2 y2)
      ∧ (∀ x2 y2 : Int,
          GridObj.get s1 exampleObj x2 y2 = GridObj.get exampleStore exampleObj x2 y2)
      ∧ ∃ s2 : Store, GridObj.set s1 g2 0 0 WHITE = .ok s2
          ∧ (∀ x2 y2 : Int,
              GridObj.get s2 exampleObj x2 y2 = GridObj.get exampleStore exampleObj x2 y2)
          ∧ GridObj.get s2 g2 0 0 = WHITE :=
  copy_equal_and_independent exampleStore exampleObj WHITE 0 0 (by decide) (by decide)

end Cellular

namespace Cellular

/-- C15: `shade` writes `f` at every position. On a well-formed grid, whatever
it holds, and for every pure callback `f`, `shade(f)` succeeds, keeps the
dimensions, and afterwards `get(x, y) = f(x, y)` at every in-range position;
the loops visit the positions row by row, every position once, and the
running index at the visit of `(x, y)` is `(y * width + x) * 4`. -/
theorem shade_writes_every_position (g : Grid) (f : Int → Int → Color) (hg : g.WF) :
    (∃ g' : Grid, g.shade f = .ok g' ∧ g'.width = g.width ∧ g'.height = g.height
        ∧ ∀ x y : Int, 0 ≤ x → x < g.width → 0 ≤ y → y < g.height →
            g'.get x y = f x y)
      ∧ g.shadeVisited
          = (List.range g.height).flatMap fun (y : Nat) =>
              (List.range g.width).map fun (x : Nat) =>
                ((((y : Int) * g.width + (x : Int)) * 4), (x : Int), (y : Int)) := by
  constructor
  · obtain ⟨g', hrun, hw, hh, hl, hcells⟩ := shade_cells g f hg
    have hg' : g'.WF := ⟨hw ▸ hg.1, hh ▸ hg.2.1, by rw [hl, hw, hh]; exact hg.2.2⟩
    refine ⟨g', hrun, hw, hh, ?_⟩
    intro x y hx0 hx1 hy0 hy1
    rw [get_eq_cellAt g' x y hg']
    unfold Grid.cellIndex
    rw [hw, hh, Int.emod_eq_of_lt hx0 hx1, Int.emod_eq_of_lt hy0 hy1,
      hcells _ _ (by omega) (by omega), Int.toNat_of_nonneg hx0, Int.toNat_of_nonneg hy0]
  · unfold Grid.shadeVisited
    rw [visitRows]

/-- Witness of C15 on the example grid with a callback that encodes the
position in the color. -/
theorem shade_writes_every_position_witness :
    (∃ g' : Grid, exampleGrid.shade (fun x y => Color.new x y 0 255) = .ok g'
        ∧ g'.width = exampleGrid.width ∧ g'.height = exampleGrid.height
        ∧ ∀ x y : Int, 0 ≤ x → x < exampleGrid.width → 0 ≤ y → y < exampleGrid.height →
            g'.get x y = (fun x y => Color.new x y 0 255) x y)
      ∧ exampleGrid.shadeVisited
          = (List.range exampleGrid.height).flatMap fun (y : Nat) =>
              (List.range exampleGrid.width).map fun (x : Nat) =>
                ((((y : Int) * exampleGrid.width + (x : Int)) * 4), (x : Int), (y : Int)) :=
  shade_writes_every_position exampleGrid (fun x y => Color.new x y 0 255) (by decide)

end Cellular

namespace Cellular

/-! ## Claims about construction -/

/-- C16: clamping of the channels of a color. For all integers `r`, `g`, `b`,
`a`, the color built from them holds `min (max v 0) 255` of its own input `v`
in each channel, so construction is defined for every input and no channel
depends on another input; and for every color `c`, the copy constructor gives
a color equal to `c`, which `equals` confirms channel by channel. -/
theorem color_channels_clamped (r g b a : Int) (c : Color) :
    (((Color.new r g b a).r : Nat) : Int) = min (max r 0) 255
      ∧ (((Color.new r g b a).g : Nat) : Int) = min (max g 0) 255
      ∧ (((Color.new r g b a).b : Nat) : Int) = min (max b 0) 255
      ∧ (((Color.new r g b a).a : Nat) : Int) = min (max a 0) 255
      ∧ Color.ofArray c.toList = c
      ∧ (Color.ofArray c.toList).equals c = true := by
  refine ⟨clampByte_val r, clampByte_val g, clampByte_val b, clampByte_val a,
    ofArray_toList c, ?_⟩
  rw [ofArray_toList]
  exact (equals_iff c c).2 rfl

/-- C17 as stated fails for large dimensions: with width and height `2^26` the
buffer would have `2^54` bytes, more than the `2^53 - 1` that ECMAScript lets
any engine allocate, so the allocation raises `RangeError` and there is no
grid, although both dimensions are positive. -/
theorem large_grid_raises_range_error :
    ((0 : Int) < 67108864
        ∧ Grid.newWithin 9007199254740991 67108864 67108864 = .error .RangeError)
      ∧ ¬ (∀ (limit : Nat) (width height : Int), (limit : Int) ≤ MAX_SAFE_INTEGER →
          0 < width → 0 < height →
          ∃ g : Grid, Grid.newWithin limit width height = .ok g
            ∧ (g.data.length : Int) = width * height * 4) := by
  have h1 : Grid.newWithin 9007199254740991 67108864 67108864 = .error .RangeError :=
    newWithin_of_gt _ _ _ (by decide)
  refine ⟨⟨by decide, h1⟩, ?_⟩
  intro hall
  obtain ⟨g, hg, _⟩ := hall 9007199254740991 67108864 67108864 (by decide) (by decide)
    (by decide)
  rw [h1] at hg
  cases hg

/-- C17, amended: a new grid within the limit of the engine is zero-filled.
On an engine whose typed arrays hold at most `limit` elements, with `limit`
at most `2^53 - 1`, for all positive integers `width` and `height` with
`width * height * 4 <= limit` the constructor succeeds and the grid has that
width and height, a buffer of exactly `width * height * 4` bytes, and
`get(x, y)` is the color `(0, 0, 0, 0)` for all integers `x` and `y`. -/
theorem new_grid_zero_filled (limit : Nat) (width height : Int)
    (_hlimit : (limit : Int) ≤ MAX_SAFE_INTEGER) (hw : 0 < width) (hh : 0 < height)
    (hfit : width * height * 4 ≤ limit) :
    ∃ g : Grid, Grid.newWithin limit width height = .ok g
      ∧ (g.width : Int) = width ∧ (g.height : Int) = height
      ∧ (g.data.length : Int) = width * height * 4
      ∧ ∀ x y : Int, g.get x y = ⟨0, 0, 0, 0⟩ := by
  have hwf : (⟨width.toNat, height.toNat,
      List.replicate (width.toNat * height.toNat * Color.SIZE) 0⟩ : Grid).WF :=
    ⟨by show 0 < width.toNat; omega, by show 0 < height.toNat; omega,
      List.length_replicate _ _⟩
  refine ⟨_, (newWithin_of_le limit width height hfit).trans
      (grid_new_ok width height hw hh), Int.toNat_of_nonneg (by omega),
    Int.toNat_of_nonneg (by omega), ?_, ?_⟩
  · rw [List.length_replicate, Color.SIZE]
    push_cast
    rw [Int.toNat_of_nonneg (by omega), Int.toNat_of_nonneg (by omega)]
  · intro x y
    rw [get_eq_cellAt _ x y hwf]
    exact cellAt_replicate _ _

/-- Witness of C17 as amended: a new grid of width 3 and height 2 on an engine
with the limit `2^32 - 1`. -/
theorem new_grid_zero_filled_witness :
    ∃ g : Grid, Grid.newWithin 4294967295 3 2 = .ok g
      ∧ (g.width : Int) = 3 ∧ (g.height : Int) = 2
      ∧ (g.data.length : Int) = 3 * 2 * 4
      ∧ ∀ x y : Int, g.get x y = ⟨0, 0, 0, 0⟩ :=
  new_grid_zero_filled 4294967295 3 2 (by decide) (by decide) (by decide) (by decide)

/-- C18 as stated fails in both directions. For width `-1` and height `1` the
byte length `-4` is refused by the allocation of the buffer with
`RangeError`, before the base constructor sees the dimensions, so the failure
is not `InvalidDimensions`; and for width and height `2^26` the construction
fails, with `RangeError`, although both dimensions are positive. -/
theorem negative_width_raises_range_error :
    (Grid.newWithin 9007199254740991 (-1) 1 = .error .RangeError
        ∧ Grid.newWithin 9007199254740991 (-1) 1 ≠ .error .InvalidDimensions
        ∧ Grid.newWithin 9007199254740991 67108864 67108864 = .error .RangeError)
      ∧ ¬ (∀ (limit : Nat) (width height : Int), (limit : Int) ≤ MAX_SAFE_INTEGER →
          (Grid.newWithin limit width height = .error .InvalidDimensions
            ↔ (width ≤ 0 ∨ height ≤ 0)))
      ∧ ¬ (∀ (limit : Nat) (width height : Int), (limit : Int) ≤ MAX_SAFE_INTEGER →
          ((∃ e : JsError, Grid.newWithin limit width height = .error e)
            ↔ (width ≤ 0 ∨ height ≤ 0))) := by
  have h1 : Grid.newWithin 9007199254740991 (-1) 1 = .error .RangeError := rfl
  have h2 : Grid.newWithin 9007199254740991 (-1) 1 ≠ .error .InvalidDimensions := by
    rw [h1]; intro h; cases h
  have h3 : Grid.newWithin 9007199254740991 67108864 67108864 = .error .RangeError :=
    newWithin_of_gt _ _ _ (by decide)
  refine ⟨⟨h1, h2, h3⟩, ?_, ?_⟩
  · intro hall
    exact h2 ((hall 9007199254740991 (-1) 1 (by decide)).2 (Or.inl (by decide)))
  · intro hall
    have h := (hall 9007199254740991 67108864 67108864 (by decide)).1 ⟨_, h3⟩
    omega

/-- C18, amended: on an engine whose typed arrays hold at most `limit`
elements, with `limit` at most `2^53 - 1`, and for all integers `width` and
`height`, the constructor produces a grid exactly when both are positive and
`width * height * 4 <= limit`, and fails otherwise: with `RangeError` from the
allocation of the buffer exactly when `width * height` is negative or
`width * height * 4` exceeds the limit, and with `InvalidDimensions` exactly
when `width <= 0` or `height <= 0` and the allocation succeeds. -/
theorem invalid_dimensions_rejected (limit : Nat) (width height : Int)
    (_hlimit : (limit : Int) ≤ MAX_SAFE_INTEGER) :
    ((∃ g : Grid, Grid.newWithin limit width height = .ok g)
        ↔ (0 < width ∧ 0 < height ∧ width * height * 4 ≤ limit))
      ∧ ((∃ e : JsError, Grid.newWithin limit width height = .error e)
        ↔ (width ≤ 0 ∨ height ≤ 0 ∨ (limit : Int) < width * height * 4))
      ∧ (Grid.newWithin limit width height = .error .RangeError
        ↔ (width * height < 0 ∨ (limit : Int) < width * height * 4))
      ∧ (Grid.newWithin limit width height = .error .InvalidDimensions ↔
          ((width ≤ 0 ∨ height ≤ 0) ∧ 0 ≤ width * height
            ∧ width * height * 4 ≤ limit)) := by
  by_cases hbig : (limit : Int) < width * height * 4
  · rw [newWithin_of_gt limit width height hbig]
    refine ⟨⟨?_, ?_⟩, ⟨fun _ => Or.inr (Or.inr hbig), fun _ => ⟨_, rfl⟩⟩,
      ⟨fun _ => Or.inr hbig, fun _ => rfl⟩, ⟨?_, ?_⟩⟩
    · rintro ⟨g, hg⟩; cases hg
    · intro h; omega
    · intro h; cases h
    · intro h; omega
  · rw [newWithin_of_le limit width height (by omega)]
    by_cases hpos : 0 < width ∧ 0 < height
    · have hok := grid_new_ok width height hpos.1 hpos.2
      have hprod : 0 < width * height := Int.mul_pos hpos.1 hpos.2
      rw [hok]
      refine ⟨⟨fun _ => ⟨hpos.1, hpos.2, by omega⟩, fun _ => ⟨_, rfl⟩⟩, ⟨?_, ?_⟩,
        ⟨?_, ?_⟩, ⟨?_, ?_⟩⟩
      · rintro ⟨e, he⟩; cases he
      · intro h; omega
      · intro h; cases h
      · intro h; omega
      · intro h; cases h
      · intro h; omega
    · have hdim : width ≤ 0 ∨ height ≤ 0 := by omega
      by_cases hneg : width * height < 0
      · rw [(grid_new_error width height).1 hneg]
        refine ⟨⟨?_, fun h => absurd ⟨h.1, h.2.1⟩ hpos⟩,
          ⟨fun _ => by omega, fun _ => ⟨_, rfl⟩⟩,
          ⟨fun _ => Or.inl hneg, fun _ => rfl⟩, ⟨?_, ?_⟩⟩
        · rintro ⟨g, hg⟩; cases hg
        · intro h; cases h
        · intro h; omega
      · rw [(grid_new_error width height).2 (by omega) hdim]
        refine ⟨⟨?_, fun h => absurd ⟨h.1, h.2.1⟩ hpos⟩,
          ⟨fun _ => by omega, fun _ => ⟨_, rfl⟩⟩,
          ⟨?_, ?_⟩, ⟨fun _ => ⟨hdim, by omega, by omega⟩, fun _ => rfl⟩⟩
        · rintro ⟨g, hg⟩; cases hg
        · intro h; cases h
        · intro h; omega

/-- Witness of C18 as amended: width `-1` and height `1` on an engine with the
limit `2^32 - 1`. -/
theorem invalid_dimensions_rejected_witness :
    ((∃ g : Grid, Grid.newWithin 4294967295 (-1) 1 = .ok g)
        ↔ ((0 : Int) < -1 ∧ (0 : Int) < 1 ∧ (-1 : Int) * 1 * 4 ≤ ((4294967295 : Nat) : Int)))
      ∧ ((∃ e : JsError, Grid.newWithin 4294967295 (-1) 1 = .error e)
        ↔ ((-1 : Int) ≤ 0 ∨ (1 : Int) ≤ 0
          ∨ ((4294967295 : Nat) : Int) < (-1 : Int) * 1 * 4))
      ∧ (Grid.newWithin 4294967295 (-1) 1 = .error .RangeError
        ↔ ((-1 : Int) * 1 < 0 ∨ ((4294967295 : Nat) : Int) < (-1 : Int) * 1 * 4))
      ∧ (Grid.newWithin 4294967295 (-1) 1 = .error .InvalidDimensions ↔
          (((-1 : Int) ≤ 0 ∨ (1 : Int) ≤ 0) ∧ 0 ≤ (-1 : Int) * 1
            ∧ (-1 : Int) * 1 * 4 ≤ ((4294967295 : Nat) : Int))) :=
  invalid_dimensions_rejected 4294967295 (-1) 1 (by decide)

end Cellular

namespace Cellular

/-! ## Claims about one generation on any grid -/

/-- C19: the Life step commutes with translation on the torus. For
well-formed grids `g` and `g2` of the same dimensions and all integers `a` and
`b`, if `g2.get(x, y) = g.get(x + a, y + b)` for all integers `x`, `y`, then
one generation succeeds on both and the same relation holds between the
results. -/
theorem life_commutes_with_translation (g g2 : Grid) (a b : Int) (hg : g.WF)
    (hg2 : g2.WF) (hw : g2.width = g.width) (hh : g2.height = g.height)
    (hshift : ∀ x y : Int, g2.get x y = g.get (x + a) (y + b)) :
    ∃ g' g2' : Grid, step g = .ok g' ∧ step g2 = .ok g2'
      ∧ g2'.width = g'.width ∧ g2'.height = g'.height
      ∧ ∀ x y : Int, g2'.get x y = g'.get (x + a) (y + b) := by
  obtain ⟨g', hrun, _, hw', hh', hget⟩ := step_get g hg
  obtain ⟨g2', hrun2, _, hw2', hh2', hget2⟩ := step_get g2 hg2
  refine ⟨g', g2', hrun, hrun2, by rw [hw2', hw', hw], by rw [hh2', hh', hh], ?_⟩
  intro x y
  rw [hget2 x y, hget (x + a) (y + b)]
  exact lifeRule_shift g g2 a b hshift x y

/-- Witness of C19: the example grid and the same grid moved one column to the
left. -/
theorem life_commutes_with_translation_witness :
    ∃ g' g2' : Grid, step exampleGrid = .ok g' ∧ step shiftedGrid = .ok g2'
      ∧ g2'.width = g'.width ∧ g2'.height = g'.height
      ∧ ∀ x y : Int, g2'.get x y = g'.get (x + 1) (y + 0) :=
  life_commutes_with_translation exampleGrid shiftedGrid 1 0 (by decide) (by decide)
    rfl rfl
    (shift_of_range exampleGrid shiftedGrid 1 0 (by decide) (by decide) rfl rfl
      (by decide))

/-- C20: one generation makes the grid binary. On every well-formed grid,
whatever colors its cells hold, one generation succeeds, keeps the dimensions,
and leaves every cell exactly white, `(255, 255, 255, 255)`, or exactly
black, `(0, 0, 0, 255)`. -/
theorem generation_makes_grid_binary (g : Grid) (hg : g.WF) :
    ∃ g' : Grid, step g = .ok g' ∧ g'.WF ∧ g'.width = g.width ∧ g'.height = g.height
      ∧ (∀ x y : Int, g'.get x y = WHITE ∨ g'.get x y = BLACK)
      ∧ WHITE = ⟨255, 255, 255, 255⟩ ∧ BLACK = ⟨0, 0, 0, 255⟩ := by
  obtain ⟨g', hrun, hg', hw', hh', hget⟩ := step_get g hg
  refine ⟨g', hrun, hg', hw', hh', ?_, by decide, by decide⟩
  intro x y
  rw [hget x y]
  exact lifeRule_binary _

/-- Witness of C20: the grid whose middle cell holds `(0, 0, 0, 0)`. -/
theorem generation_makes_grid_binary_witness :
    ∃ g' : Grid, step freshCellGrid = .ok g' ∧ g'.WF ∧ g'.width = freshCellGrid.width
      ∧ g'.height = freshCellGrid.height
      ∧ (∀ x y : Int, g'.get x y = WHITE ∨ g'.get x y = BLACK)
      ∧ WHITE = ⟨255, 255, 255, 255⟩ ∧ BLACK = ⟨0, 0, 0, 255⟩ :=
  generation_makes_grid_binary freshCellGrid (by decide)

end Cellular
